import Mathlib

/-!
Shallow embedding of the BLLN Arc-Flow → PRODUCE transformation pipeline
(`src/transform/transformer.ts`, `src/transform/validator.ts`) and proofs of
the behavioural claims about it.

Modelling conventions:
* JavaScript numbers that hold calendar weeks, ids and rounded week counts
  are modelled as `Int`; raw fractional quantities (durations, days,
  percentages, quantities per area) as `ℚ`.
* `Math.round` (round half toward +∞) is `jsRound`.
* JS `Map`/`Set`/object insertion-order semantics are modelled with explicit
  association lists (`mapGet`, `mapSet`, `jsKeys`, `objSet`).
* JS stable `Array.prototype.sort` with a numeric comparator is modelled with
  `List.insertionSort`, which is also stable.
-/

namespace BLN

/-- JS `Math.round`: round half toward positive infinity. -/
def jsRound (q : ℚ) : Int := ⌊q + 1/2⌋

/-- `daysToWeeks` from `transformer.ts`: `Math.round(days / 7)`. -/
def daysToWeeks (days : ℚ) : Int := jsRound (days / 7)

/-- JS `String.prototype.toLowerCase` (ASCII-faithful). -/
def jsToLowerCase (s : String) : String := String.mk (s.data.map Char.toLower)

/-- JS `String.prototype.trim` (whitespace stripped from both ends),
implemented structurally so that proofs can evaluate it. -/
def jsTrim (s : String) : String :=
  String.mk (((s.data.dropWhile Char.isWhitespace).reverse.dropWhile
    Char.isWhitespace).reverse)

/-- Split a character list at every occurrence of `c` (JS
`String.prototype.split` with a one-character separator). -/
def splitOnCharList (c : Char) : List Char → List (List Char)
  | [] => [[]]
  | x :: xs =>
    let rest := splitOnCharList c xs
    if x = c then [] :: rest
    else
      match rest with
      | [] => [[x]]
      | r :: rs => (x :: r) :: rs

/-- JS `code.split('-')`. -/
def jsSplitDash (s : String) : List String :=
  (splitOnCharList '-' s.data).map String.mk

/-- JS `Set` iteration order: first occurrence of each element is kept. -/
def jsKeys {α : Type} [DecidableEq α] (l : List α) : List α :=
  l.foldl (fun acc k => if k ∈ acc then acc else acc ++ [k]) []

/-- JS `Map.prototype.get` over an association list built by repeated
`Map.prototype.set` pushes: the value of the last `set` for a key wins. -/
def mapGet {β : Type} (entries : List (String × β)) (k : String) : Option β :=
  (entries.reverse.find? (fun e => e.1 == k)).map (·.2)

/-- JS truthiness of a `number | undefined` value: `undefined` and `0` are falsy. -/
def jsTruthy (o : Option Int) : Bool :=
  match o with
  | none => false
  | some v => v != 0

-- ## Raw data model (`types.ts`)

structure ProductionScheme where
  code : String
  description : String
  genusCode : String
deriving DecidableEq, Repr

structure ProductionSchemeLine where
  schemeCode : String
  lineNo : String
  phase : String
  duration : ℚ
  qtyPerArea : ℚ
  output : ℚ
deriving DecidableEq, Repr

structure ProductionSchemeLinePeriod where
  schemeCode : String
  lineNo : String
  phase : String
  days : ℚ
  periodNo : Int
deriving DecidableEq, Repr

structure ProductionPreference where
  productionItemNo : String
  variantCode : String
  locationCode : String
  schemeCode : String
  activitySchemeCode : String
  addActivitySchemeCode : String
deriving DecidableEq, Repr

/-- `weeklyPcts` is a JS `Map<number, number>` given to the engine already
built, hence with pairwise-distinct keys in insertion order. -/
structure MixRow where
  location : String
  commonItem : String
  productionItem : String
  variantCode : String
  weeklyPcts : List (Int × ℚ)
deriving DecidableEq, Repr

structure ParsedData where
  schemes : List ProductionScheme
  schemeLines : List ProductionSchemeLine
  schemeLinePeriods : List ProductionSchemeLinePeriod
  preferences : List ProductionPreference
  mixRows : List MixRow
deriving DecidableEq, Repr

structure SchemeRule where
  startWeek : Int
  endWeek : Int
  growWeeks : Int
  phase : String
deriving DecidableEq, Repr

/-- `SchemeDictionary`: scheme code → rules, in key insertion order. -/
abbrev SchemeDictionary := List (String × List SchemeRule)

/-- Dictionary lookup `schemeDictionary[schemeCode]` (keys are unique by
construction in `buildSchemeDictionary`). -/
def dictFind (dict : SchemeDictionary) (code : String) : Option (List SchemeRule) :=
  (dict.find? (fun e => e.1 == code)).map (·.2)

-- ## `parseSchemeCode`

structure SchemeCodeParts where
  category : String
  timeProfile : String
deriving DecidableEq, Repr

/-- `parseSchemeCode` from `transformer.ts`. -/
def parseSchemeCode (code : String) : SchemeCodeParts :=
  let parts := jsSplitDash code
  { category := if parts.length ≥ 2 then parts.getD 1 "" else ""
    timeProfile := if parts.length ≥ 4 then parts.getD 3 "" else "" }

-- ## `buildSchemeDictionary`

/-- The grouping key `` `${schemeCode}|${lineNo}|${phase}` ``. -/
def periodKey (schemeCode lineNo phase : String) : String :=
  schemeCode ++ "|" ++ lineNo ++ "|" ++ phase

/-- The periods grouped under one `(schemeCode, lineNo, phase)` key, in input
order (`periodsByKey.get(key) || []`). -/
def periodsFor (periods : List ProductionSchemeLinePeriod) (key : String) :
    List ProductionSchemeLinePeriod :=
  periods.filter (fun p => periodKey p.schemeCode p.lineNo p.phase == key)

/-- `[...periods].sort((a, b) => a.periodNo - b.periodNo)` (stable). -/
def sortPeriods (ps : List ProductionSchemeLinePeriod) : List ProductionSchemeLinePeriod :=
  List.insertionSort (fun a b => a.periodNo ≤ b.periodNo) ps

/-- The inner loop of `buildSchemeDictionary` over the sorted periods of one
line: rule `i` spans `[period[i].periodNo, period[i+1].periodNo - 1]`, the
last rule extends to week 53. -/
def periodRules : List ProductionSchemeLinePeriod → List SchemeRule
  | [] => []
  | p :: rest =>
    { startWeek := p.periodNo
      endWeek := match rest with
        | [] => 53
        | q :: _ => q.periodNo - 1
      growWeeks := daysToWeeks p.days
      phase := p.phase } :: periodRules rest

/-- Rules contributed by a single scheme line. -/
def rulesForLine (allPeriods : List ProductionSchemeLinePeriod)
    (line : ProductionSchemeLine) : List SchemeRule :=
  let periods := periodsFor allPeriods (periodKey line.schemeCode line.lineNo line.phase)
  if periods.isEmpty then
    [{ startWeek := 1, endWeek := 53, growWeeks := daysToWeeks (line.duration * 7),
       phase := line.phase }]
  else
    periodRules (sortPeriods periods)

/-- `buildSchemeDictionary` from `transformer.ts`: scheme codes in first
occurrence order, each mapped to the rules of its lines in input order. -/
def buildSchemeDictionary (data : ParsedData) : SchemeDictionary :=
  (jsKeys (data.schemeLines.map (·.schemeCode))).map fun code =>
    (code,
      (data.schemeLines.filter (fun l => l.schemeCode == code)).flatMap
        (rulesForLine data.schemeLinePeriods))

-- ## `mergeGrowAndSpace`

/-- The breakpoint set of `mergeGrowAndSpace`: every rule's `startWeek` and
`endWeek + 1`, plus the sentinel 54, in JS `Set` insertion order. -/
def breakpointList (rules : List SchemeRule) : List Int :=
  jsKeys ((rules.flatMap fun r => [r.startWeek, r.endWeek + 1]) ++ [54])

/-- `Array.from(breakpoints).sort((a, b) => a - b)`. -/
def sortedBreakpoints (rules : List SchemeRule) : List Int :=
  List.insertionSort (fun a b => a ≤ b) (breakpointList rules)

/-- First GROW-phase rule fully containing `[segStart, segEnd]` (the
`growWeeks = -1` search loop). -/
def findGrowRule (rules : List SchemeRule) (segStart segEnd : Int) : Option SchemeRule :=
  rules.find? (fun r =>
    r.phase == "GROW" && decide (segStart ≥ r.startWeek) && decide (segEnd ≤ r.endWeek))

/-- The `extraWeeks` summation loop: rules whose phase is neither GROW nor
INVENTORY and which fully contain the segment. -/
def extraWeeksFor (rules : List SchemeRule) (segStart segEnd : Int) : Int :=
  rules.foldl (fun acc r =>
    if r.phase ≠ "GROW" ∧ r.phase ≠ "INVENTORY" ∧ segStart ≥ r.startWeek ∧ segEnd ≤ r.endWeek
    then acc + r.growWeeks else acc) 0

/-- The loop body of `mergeGrowAndSpace` for one consecutive-breakpoint pair
`ab`: the candidate segment is `[ab.1, ab.2 - 1]`; inverted segments and
segments with no covering GROW rule yield nothing. -/
def mergeSegment (rules : List SchemeRule) (ab : Int × Int) : Option SchemeRule :=
  if ab.1 > ab.2 - 1 then none
  else
    match findGrowRule rules ab.1 (ab.2 - 1) with
    | none => none
    | some g =>
      some { startWeek := ab.1, endWeek := ab.2 - 1,
             growWeeks := g.growWeeks + extraWeeksFor rules ab.1 (ab.2 - 1),
             phase := "GROW" }

/-- `mergeGrowAndSpace` from `transformer.ts`. -/
def mergeGrowAndSpace (rules : List SchemeRule) : List SchemeRule :=
  let sortedBPs := sortedBreakpoints rules
  (sortedBPs.zip sortedBPs.tail).filterMap (mergeSegment rules)

-- ## Output record types (`types.ts`)

structure Catalog where
  id : Int
  genus : String
  series : String
  color : String
deriving DecidableEq, Repr

structure Recipe where
  id : Int
  locationCode : String
  category : String
  schemeCode : String
  genus : String
  series : String
  color : String
  startWeek : Int
  endWeek : Int
  growWeeks : Int
  notes : String
  catalogId : Option Int
deriving DecidableEq, Repr

structure SpaceEvent where
  id : Int
  recipeId : Int
  locationCode : String
  category : String
  schemeCode : String
  genus : String
  series : String
  color : String
  phase : String
  startWeek : Int
  endWeek : Int
  triggerWeeks : Int
  durationWeeks : Int
deriving DecidableEq, Repr

structure SpaceSpec where
  id : Int
  recipeId : Int
  spaceWidth : ℚ
  spaceLength : ℚ
  qtyPerArea : ℚ
  phase : String
deriving DecidableEq, Repr

structure RecipeMix where
  id : Int
  recipeId : Int
  catalogId : Int
  mixPct : ℚ
  commonItem : String
  location : String
  variant : String
  startWeek : Int
  endWeek : Int
  note : String
deriving DecidableEq, Repr

structure TransformResult where
  catalogs : List Catalog
  recipes : List Recipe
  events : List SpaceEvent
  specs : List SpaceSpec
  mixes : List RecipeMix
  errors : List String
  warnings : List String
deriving DecidableEq, Repr

-- ## `generateCatalogs`

/-- One loop step of `generateCatalogs`: state is `(catalogs, seenGenus, id)`. -/
def catalogStep (st : List Catalog × List String × Int) (scheme : ProductionScheme) :
    List Catalog × List String × Int :=
  if scheme.genusCode ∈ st.2.1 then st
  else (st.1 ++ [{ id := st.2.2, genus := scheme.genusCode, series := "", color := "" }],
        st.2.1 ++ [scheme.genusCode], st.2.2 + 1)

/-- `generateCatalogs` from `transformer.ts`. -/
def generateCatalogs (data : ParsedData) : List Catalog :=
  (data.schemes.foldl catalogStep ([], [], 1)).1

-- ## `generateRecipes`

/-- The dedup key `` `${locationCode}|${schemeCode}|${startWeek}|${endWeek}` ``. -/
def recipeKey (locationCode schemeCode : String) (startWeek endWeek : Int) : String :=
  locationCode ++ "|" ++ schemeCode ++ "|" ++ toString startWeek ++ "|" ++ toString endWeek

structure RecipeGenState where
  recipes : List Recipe
  warnings : List String
  nextId : Int
  seenRecipes : List String
deriving Repr

/-- Inner loop of `generateRecipes` over one merged rule. -/
def addRecipeForRule (pref : ProductionPreference) (genus category : String)
    (catalogId : Option Int) (st : RecipeGenState) (rule : SchemeRule) : RecipeGenState :=
  let key := recipeKey pref.locationCode pref.schemeCode rule.startWeek rule.endWeek
  if key ∈ st.seenRecipes then st
  else
    { recipes := st.recipes ++ [{
        id := st.nextId
        locationCode := pref.locationCode
        category := category
        schemeCode := pref.schemeCode
        genus := genus
        series := pref.productionItemNo
        color := pref.variantCode
        startWeek := rule.startWeek
        endWeek := rule.endWeek
        growWeeks := rule.growWeeks
        notes := pref.schemeCode
        catalogId := catalogId }]
      warnings := st.warnings
      nextId := st.nextId + 1
      seenRecipes := st.seenRecipes ++ [key] }

/-- Outer loop of `generateRecipes` over one preference row. -/
def processPreference (data : ParsedData) (dict : SchemeDictionary) (catalogs : List Catalog)
    (st : RecipeGenState) (pref : ProductionPreference) : RecipeGenState :=
  match dictFind dict pref.schemeCode with
  | none =>
    { st with warnings := st.warnings ++ ["No rules found for scheme: " ++ pref.schemeCode] }
  | some rules =>
    let genus := (mapGet (data.schemes.map fun s => (s.code, s.genusCode)) pref.schemeCode).getD ""
    let category := (parseSchemeCode pref.schemeCode).category
    let catalogId := mapGet (catalogs.map fun c => (c.genus, c.id)) genus
    (mergeGrowAndSpace rules).foldl (addRecipeForRule pref genus category catalogId) st

/-- `generateRecipes` from `transformer.ts`; returns `(recipes, warnings)`. -/
def generateRecipes (data : ParsedData) (dict : SchemeDictionary) (catalogs : List Catalog) :
    List Recipe × List String :=
  let st := data.preferences.foldl (processPreference data dict catalogs)
    { recipes := [], warnings := [], nextId := 1, seenRecipes := [] }
  (st.recipes, st.warnings)

-- ## `generateEvents`

/-- Inner loop of `generateEvents` over one rule; state is `(events, id)`. -/
def eventStep (recipe : Recipe) (growRules : List SchemeRule)
    (st : List SpaceEvent × Int) (rule : SchemeRule) : List SpaceEvent × Int :=
  if recipe.startWeek > rule.endWeek ∨ recipe.endWeek < rule.startWeek then st
  else
    let ovStart := max recipe.startWeek rule.startWeek
    let ovEnd := min recipe.endWeek rule.endWeek
    let triggerWeeks : Int :=
      if rule.phase ≠ "GROW" then
        match growRules.find? (fun g =>
          decide (ovStart ≥ g.startWeek) && decide (ovEnd ≤ g.endWeek)) with
        | some g => g.growWeeks
        | none => 0
      else 0
    (st.1 ++ [{
        id := st.2
        recipeId := recipe.id
        locationCode := recipe.locationCode
        category := recipe.category
        schemeCode := recipe.schemeCode
        genus := recipe.genus
        series := recipe.series
        color := recipe.color
        phase := rule.phase
        startWeek := ovStart
        endWeek := ovEnd
        triggerWeeks := triggerWeeks
        durationWeeks := rule.growWeeks }], st.2 + 1)

/-- Outer loop of `generateEvents` over one recipe. -/
def eventsForRecipe (dict : SchemeDictionary) (st : List SpaceEvent × Int)
    (recipe : Recipe) : List SpaceEvent × Int :=
  match dictFind dict recipe.schemeCode with
  | none => st
  | some rules =>
    let growRules := rules.filter (fun r => r.phase == "GROW")
    rules.foldl (eventStep recipe growRules) st

/-- `generateEvents` from `transformer.ts`. -/
def generateEvents (recipes : List Recipe) (dict : SchemeDictionary) : List SpaceEvent :=
  (recipes.foldl (eventsForRecipe dict) ([], 1)).1

-- ## `generateSpecs`

/-- `Math.sqrt` stand-in: `Math.sqrt` computes an IEEE double; it is modelled
here as the exact nonnegative rational square root when one exists and 0
otherwise.  No claim in this development depends on its values. -/
def ratSqrt (q : ℚ) : ℚ :=
  let n := q.num.toNat
  let d := q.den
  if Nat.sqrt n * Nat.sqrt n = n ∧ Nat.sqrt d * Nat.sqrt d = d ∧ 0 ≤ q.num then
    (Nat.sqrt n : ℚ) / (Nat.sqrt d : ℚ)
  else 0

/-- `Math.round(x * 100) / 100`. -/
def jsRound2 (q : ℚ) : ℚ := (jsRound (q * 100) : ℚ) / 100

/-- `generateSpecs` from `transformer.ts`. -/
def generateSpecs (recipes : List Recipe) (data : ParsedData) : List SpaceSpec :=
  let schemeQty := fun (code : String) =>
    (data.schemeLines.filter (fun l => l.schemeCode == code)).map
      (fun l => (l.phase, l.qtyPerArea))
  (recipes.foldl (fun (st : List SpaceSpec × Int) recipe =>
    let qtyData := schemeQty recipe.schemeCode
    if qtyData.isEmpty then st
    else qtyData.foldl (fun st item =>
      if item.2 > 0 then
        let spaceDim := ratSqrt item.2
        (st.1 ++ [{
            id := st.2
            recipeId := recipe.id
            spaceWidth := jsRound2 spaceDim
            spaceLength := jsRound2 spaceDim
            qtyPerArea := item.2
            phase := item.1 }], st.2 + 1)
      else st) st) ([], 1)).1

-- ## `pickBestRecipe`

/-- `pickBestRecipe` from `transformer.ts`: narrowest window containing the
week, among recipes matching location and series; state is `(best, bestScore)`. -/
def pickBestRecipe (recipes : List Recipe) (location productionItem : String)
    (week : Int) : Option Recipe :=
  (recipes.foldl (fun (best : Option Recipe × Int) recipe =>
    if recipe.locationCode ≠ location then best
    else if recipe.series ≠ productionItem then best
    else if week < recipe.startWeek ∨ week > recipe.endWeek then best
    else
      let score := recipe.endWeek - recipe.startWeek
      if score < best.2 then (some recipe, score) else best) (none, 9999)).1

-- ## `generateMixes`

/-- The `catalogByVariant` lookup map of `generateMixes`:
`` `${genus}|${series}|${color}`.toLowerCase() → id ``. -/
def buildCatalogByVariant (catalogs : List Catalog) : List (String × Int) :=
  catalogs.map fun c => (jsToLowerCase (c.genus ++ "|" ++ c.series ++ "|" ++ c.color), c.id)

/-- The exact variant key used by `generateMixes`. -/
def variantKey (genus productionItem variantCode : String) : String :=
  jsToLowerCase (genus ++ "|" ++ productionItem ++ "|" ++ variantCode)

structure MixGenState where
  mixes : List RecipeMix
  warnings : List String
  nextId : Int
deriving Repr

/-- Closing one run-length segment of `generateMixes` (the body under
`currentPct > 0 && startWeek !== undefined`). -/
def closeMixSegment (mixRow : MixRow) (recipes : List Recipe) (catalogs : List Catalog)
    (catalogByVariant : List (String × Int)) (currentPct : ℚ) (sw ew : Int)
    (st : MixGenState) : MixGenState :=
  match pickBestRecipe recipes mixRow.location mixRow.productionItem sw with
  | none =>
    { st with warnings := st.warnings ++
        ["No recipe found for " ++ mixRow.location ++ "/" ++ mixRow.productionItem ++
         " week " ++ toString sw] }
  | some recipe =>
    let fromExact := mapGet catalogByVariant
      (variantKey recipe.genus mixRow.productionItem mixRow.variantCode)
    let catalogId : Option Int :=
      if jsTruthy fromExact then fromExact
      else
        match catalogs.find? (fun c => jsToLowerCase c.genus == jsToLowerCase recipe.genus) with
        | some c => some c.id
        | none => fromExact
    { mixes := st.mixes ++ [{
        id := st.nextId
        recipeId := recipe.id
        catalogId := catalogId.getD 0
        mixPct := currentPct
        commonItem := mixRow.commonItem
        location := mixRow.location
        variant := mixRow.variantCode
        startWeek := sw
        endWeek := ew
        note := if jsTruthy catalogId then "OK" else "No Catalog" }]
      warnings := st.warnings
      nextId := st.nextId + 1 }

/-- Helper for the close test `currentPct > 0 && startWeek !== undefined`,
with `endWeek = weekNums[i - 1] ?? startWeek`. -/
def closeIfValid (mixRow : MixRow) (recipes : List Recipe) (catalogs : List Catalog)
    (catalogByVariant : List (String × Int)) (currentPct : ℚ)
    (startWeek prevWeek : Option Int) (st : MixGenState) : MixGenState :=
  match startWeek with
  | none => st
  | some sw =>
    if currentPct > 0 then
      closeMixSegment mixRow recipes catalogs catalogByVariant currentPct sw
        (prevWeek.getD sw) st
    else st

/-- The run-length loop of `generateMixes` (`for (let i = 0; i <= weekNums.length; i++)`),
as structural recursion over the remaining week numbers.  `prevWeek` is
`weekNums[i - 1]`. -/
def mixRowLoop (mixRow : MixRow) (recipes : List Recipe) (catalogs : List Catalog)
    (catalogByVariant : List (String × Int)) :
    List Int → ℚ → Option Int → Option Int → MixGenState → MixGenState
  | [], currentPct, startWeek, prevWeek, st =>
    -- i = weekNums.length: pct = -1, boundary is forced
    closeIfValid mixRow recipes catalogs catalogByVariant currentPct startWeek prevWeek st
  | w :: rest, currentPct, startWeek, prevWeek, st =>
    let pct := ((mixRow.weeklyPcts.find? (·.1 == w)).map (·.2)).getD (-1)
    if pct ≠ currentPct then
      let st' := closeIfValid mixRow recipes catalogs catalogByVariant currentPct
        startWeek prevWeek st
      mixRowLoop mixRow recipes catalogs catalogByVariant rest pct (some w) (some w) st'
    else
      mixRowLoop mixRow recipes catalogs catalogByVariant rest currentPct startWeek (some w) st

/-- One `mixRow` iteration of `generateMixes`. -/
def processMixRow (recipes : List Recipe) (catalogs : List Catalog)
    (catalogByVariant : List (String × Int)) (st : MixGenState) (mixRow : MixRow) :
    MixGenState :=
  if mixRow.weeklyPcts.length == 0 then st
  else
    let weekNums := List.insertionSort (fun a b => a ≤ b)
      (jsKeys (mixRow.weeklyPcts.map (·.1)))
    mixRowLoop mixRow recipes catalogs catalogByVariant weekNums (-1) weekNums.head? none st

/-- `generateMixes` from `transformer.ts`; returns `(mixes, warnings)`. -/
def generateMixes (data : ParsedData) (recipes : List Recipe) (catalogs : List Catalog) :
    List RecipeMix × List String :=
  if data.mixRows.length == 0 then ([], [])
  else
    let catalogByVariant := buildCatalogByVariant catalogs
    let st := data.mixRows.foldl (processMixRow recipes catalogs catalogByVariant)
      { mixes := [], warnings := [], nextId := 1 }
    (st.mixes, st.warnings)

-- ## `transform`

/-- The input-validation errors collected at the top of `transform`. -/
def transformErrors (data : ParsedData) : List String :=
  (if data.schemes.length == 0 then ["No ProductionScheme data found"] else []) ++
  (if data.schemeLines.length == 0 then ["No ProductionSchemeLine data found"] else [])

/-- `transform` from `transformer.ts`. -/
def transform (data : ParsedData) : TransformResult :=
  let errors := transformErrors data
  if errors.length > 0 then
    { catalogs := [], recipes := [], events := [], specs := [], mixes := [],
      errors := errors, warnings := [] }
  else
    let schemeDictionary := buildSchemeDictionary data
    let catalogs := generateCatalogs data
    let recipesAndWarnings := generateRecipes data schemeDictionary catalogs
    let events := generateEvents recipesAndWarnings.1 schemeDictionary
    let specs := generateSpecs recipesAndWarnings.1 data
    let mixesAndWarnings := generateMixes data recipesAndWarnings.1 catalogs
    { catalogs := catalogs
      recipes := recipesAndWarnings.1
      events := events
      specs := specs
      mixes := mixesAndWarnings.1
      errors := errors
      warnings := recipesAndWarnings.2 ++ mixesAndWarnings.2 }

-- ## `validateParsedData` (`validator.ts`)

inductive Severity where
  | error
  | warning
  | info
deriving DecidableEq, Repr

structure ValidationIssue where
  severity : Severity
  category : String
  message : String
  details : Option String
  count : Option Int
deriving DecidableEq, Repr

structure DataStats where
  schemeCount : Int
  schemeLineCount : Int
  periodCount : Int
  preferenceCount : Int
  mixRowCount : Int
  uniqueLocations : List String
  uniqueGenera : List String
  uniquePhases : List String
  schemesWithPeriods : Int
  schemesWithoutPeriods : Int
  avgLinesPerScheme : ℚ
  weekCoverage : Int × Int
deriving DecidableEq, Repr

structure ValidationResult where
  isValid : Bool
  canTransform : Bool
  issues : List ValidationIssue
  stats : DataStats
  qualityScore : Int
deriving DecidableEq, Repr

/-- `slice(0, 10).join(', ')` plus the `(+k more)` suffix used in details
strings. -/
def detailsFirst10 (l : List String) (withMore : Bool) : String :=
  String.intercalate ", " (l.take 10) ++
    (if withMore ∧ l.length > 10 then
      " (+" ++ toString (l.length - 10) ++ " more)"
     else "")

/-- `[...new Set(xs)]` in first-occurrence order. -/
def setList (xs : List String) : List String := jsKeys xs

/-- JS default `Array.prototype.sort()` over strings (lexicographic). -/
def sortStrings (xs : List String) : List String :=
  List.insertionSort (fun a b => a ≤ b) xs

/-- `Math.min(...xs)` / `Math.max(...xs)` over a nonempty list. -/
def listMin : List Int → Int
  | [] => 0
  | x :: xs => xs.foldl min x

def listMax : List Int → Int
  | [] => 0
  | x :: xs => xs.foldl max x

/-- The `--- Critical: Missing data ---` block of `validateParsedData`. -/
def missingDataIssues (data : ParsedData) : List ValidationIssue :=
  (if data.schemes.length = 0 then
    [{ severity := .error, category := "Missing Data",
       message := "No ProductionScheme data found. Upload the ProductionScheme CSV.",
       details := none, count := none }] else []) ++
  (if data.schemeLines.length = 0 then
    [{ severity := .error, category := "Missing Data",
       message := "No ProductionSchemeLine data found. Upload the ProductionSchemeLine CSV.",
       details := none, count := none }] else []) ++
  (if data.preferences.length = 0 then
    [{ severity := .error, category := "Missing Data",
       message := "No ProductionPreferences data found. Upload the ProductionPreferences CSV.",
       details := none, count := none }] else []) ++
  (if data.schemeLinePeriods.length = 0 then
    [{ severity := .warning, category := "Missing Data",
       message := "No ProductionSchemeLinePeriod data - all schemes will use default full-year durations",
       details := none, count := some 0 }] else []) ++
  (if data.mixRows.length = 0 then
    [{ severity := .info, category := "Optional Data",
       message := "No 4M Variant Mixes loaded - mix output will be empty. Upload the Excel file if needed.",
       details := none, count := none }] else [])

/-- The `--- Orphan references ---` block of `validateParsedData`. -/
def orphanIssues (data : ParsedData) : List ValidationIssue :=
  let schemeCodesInSchemes := setList (data.schemes.map (·.code))
  let orphanPrefSchemes := (setList (data.preferences.map (·.schemeCode))).filter
    (fun c => c ∉ schemeCodesInSchemes)
  let orphanLineSchemes := (setList (data.schemeLines.map (·.schemeCode))).filter
    (fun c => c ∉ schemeCodesInSchemes)
  let orphanPeriodSchemes := (setList (data.schemeLinePeriods.map (·.schemeCode))).filter
    (fun c => c ∉ schemeCodesInSchemes)
  (if orphanPrefSchemes.length > 0 then
    [{ severity := .warning, category := "Orphan References",
       message := toString orphanPrefSchemes.length ++
         " preference(s) reference schemes not in ProductionScheme",
       details := some (detailsFirst10 orphanPrefSchemes true),
       count := some orphanPrefSchemes.length }] else []) ++
  (if orphanLineSchemes.length > 0 then
    [{ severity := .warning, category := "Orphan References",
       message := toString orphanLineSchemes.length ++
         " scheme line code(s) not found in ProductionScheme",
       details := some (detailsFirst10 orphanLineSchemes false),
       count := some orphanLineSchemes.length }] else []) ++
  (if orphanPeriodSchemes.length > 0 then
    [{ severity := .info, category := "Orphan References",
       message := toString orphanPeriodSchemes.length ++
         " period code(s) not found in ProductionScheme",
       details := some (detailsFirst10 orphanPeriodSchemes false),
       count := some orphanPeriodSchemes.length }] else [])

/-- The `--- Incomplete data ---` block of `validateParsedData`. -/
def incompleteIssues (data : ParsedData) : List ValidationIssue :=
  let schemeCodesInLines := setList (data.schemeLines.map (·.schemeCode))
  let schemesWithoutLines := (setList (data.schemes.map (·.code))).filter
    (fun c => c ∉ schemeCodesInLines)
  let prefsWithNoLines := (setList (data.preferences.map (·.schemeCode))).filter
    (fun c => c ∉ schemeCodesInLines)
  (if schemesWithoutLines.length > 0 then
    [{ severity := .warning, category := "Incomplete Data",
       message := toString schemesWithoutLines.length ++
         " scheme(s) have no scheme lines - they won't produce output",
       details := some (detailsFirst10 schemesWithoutLines false),
       count := some schemesWithoutLines.length }] else []) ++
  (if prefsWithNoLines.length > 0 then
    [{ severity := .warning, category := "Transform Impact",
       message := toString prefsWithNoLines.length ++
         " preference scheme(s) have no scheme lines - won't produce recipes",
       details := none, count := some prefsWithNoLines.length }] else [])

/-- The `--- Data quality ---` block of `validateParsedData`. -/
def dataQualityIssues (data : ParsedData) : List ValidationIssue :=
  let zeroDurationLines := data.schemeLines.filter (fun l => l.duration = 0)
  let missingGenus := data.schemes.filter (fun s => jsTrim s.genusCode = "")
  (if zeroDurationLines.length > 0 then
    [{ severity := .info, category := "Data Quality",
       message := toString zeroDurationLines.length ++ " scheme line(s) have zero duration",
       details := none, count := some zeroDurationLines.length }] else []) ++
  (if missingGenus.length > 0 then
    [{ severity := .warning, category := "Data Quality",
       message := toString missingGenus.length ++
         " scheme(s) have empty genus codes - catalogs may be incomplete",
       details := none, count := some missingGenus.length }] else [])

/-- The `--- Duplicates ---` block of `validateParsedData`. -/
def duplicateIssues (data : ParsedData) : List ValidationIssue :=
  let duplicateSchemes := (jsKeys (data.schemes.map (·.code))).filter
    (fun c => (data.schemes.filter (fun s => s.code == c)).length > 1)
  if duplicateSchemes.length > 0 then
    [{ severity := .warning, category := "Duplicates",
       message := toString duplicateSchemes.length ++ " duplicate scheme code(s) found",
       details := some (String.intercalate ", " (duplicateSchemes.map (fun c =>
         c ++ " (x" ++ toString (data.schemes.filter (fun s => s.code == c)).length ++ ")"))),
       count := some duplicateSchemes.length }] else []

/-- The `--- Mix data cross-validation ---` block of `validateParsedData`. -/
def mixDataIssues (data : ParsedData) : List ValidationIssue :=
  if data.mixRows.length > 0 then
    let prefLocations := setList ((data.preferences.map (·.locationCode)).filter (· ≠ ""))
    let unmatchedMixLocations := (setList ((data.mixRows.map (·.location)).filter (· ≠ ""))).filter
      (fun l => l ∉ prefLocations)
    let prefItems := data.preferences.map (fun p => p.locationCode ++ "|" ++ p.productionItemNo)
    let mixItemsNoPrefs := jsKeys ((data.mixRows.map
      (fun m => m.location ++ "|" ++ m.productionItem)).filter (fun k => k ∉ prefItems))
    (if unmatchedMixLocations.length > 0 then
      [{ severity := .warning, category := "Mix Data",
         message := toString unmatchedMixLocations.length ++
           " mix location(s) not found in preferences - those mixes won't match recipes",
         details := some (detailsFirst10 unmatchedMixLocations false),
         count := some unmatchedMixLocations.length }] else []) ++
    (if mixItemsNoPrefs.length > 0 then
      [{ severity := .info, category := "Mix Data",
         message := toString mixItemsNoPrefs.length ++
           " mix location/item combination(s) don't match any preference",
         details := none, count := some mixItemsNoPrefs.length }] else [])
  else []

/-- All issues of `validateParsedData`, in push order. -/
def validationIssues (data : ParsedData) : List ValidationIssue :=
  missingDataIssues data ++ orphanIssues data ++ incompleteIssues data ++
    dataQualityIssues data ++ duplicateIssues data ++ mixDataIssues data

/-- The `--- Compute stats ---` block of `validateParsedData`. -/
def validationStats (data : ParsedData) : DataStats :=
  let schemesWithPeriods := (setList (data.schemeLinePeriods.map (·.schemeCode))).length
  let linesPerSchemeKeys := jsKeys (data.schemeLines.map (·.schemeCode))
  let linesPerSchemeValues := linesPerSchemeKeys.map
    (fun c => ((data.schemeLines.filter (fun l => l.schemeCode == c)).length : ℚ))
  let avgLines : ℚ :=
    if linesPerSchemeKeys.length > 0 then
      linesPerSchemeValues.sum / (linesPerSchemeKeys.length : ℚ)
    else 0
  let allPeriodNos := (data.schemeLinePeriods.map (·.periodNo)).filter (fun w => w > 0)
  { schemeCount := data.schemes.length
    schemeLineCount := data.schemeLines.length
    periodCount := data.schemeLinePeriods.length
    preferenceCount := data.preferences.length
    mixRowCount := data.mixRows.length
    uniqueLocations := sortStrings ((setList (data.preferences.map (·.locationCode))).filter (· ≠ ""))
    uniqueGenera := sortStrings ((setList (data.schemes.map (·.genusCode))).filter (· ≠ ""))
    uniquePhases := sortStrings ((setList (data.schemeLines.map (·.phase))).filter (· ≠ ""))
    schemesWithPeriods := schemesWithPeriods
    schemesWithoutPeriods := (setList (data.schemes.map (·.code))).length - schemesWithPeriods
    avgLinesPerScheme := (jsRound (avgLines * 10) : ℚ) / 10
    weekCoverage :=
      if allPeriodNos.length > 0 then (listMin allPeriodNos, listMax allPeriodNos)
      else ((0 : Int), (0 : Int)) }

/-- `validateParsedData` from `validator.ts`. -/
def validateParsedData (data : ParsedData) : ValidationResult :=
  let issues := validationIssues data
  let errorCount := (issues.filter (fun i => i.severity == Severity.error)).length
  let warningCount := (issues.filter (fun i => i.severity == Severity.warning)).length
  let score := max 0 (min 100 (100 - (errorCount : Int) * 25 - (warningCount : Int) * 5))
  { isValid := errorCount == 0
    canTransform := decide (data.schemes.length > 0) && decide (data.schemeLines.length > 0)
    issues := issues
    qualityScore := score
    stats := validationStats data }

-- ## Comparison engine (`validator.ts`, `compareData` and helpers)

/-- A JS string record (`Record<string, string>`): keys unique, in insertion
order.  The `Record<string, unknown>` source rows of `compareData` are taken
here after their `String(v ?? '')` stringification. -/
abbrev Row := List (String × String)

/-- JS object property read `row[f]` (`undefined` when absent). -/
def rowGet (r : Row) (f : String) : Option String :=
  (r.find? (·.1 == f)).map (·.2)

/-- JS object property write `row[f] = v` (overwrites in place, appends new
keys at the end). -/
def objSet (r : Row) (k v : String) : Row :=
  if r.any (·.1 == k) then r.map (fun p => if p.1 == k then (k, v) else p)
  else r ++ [(k, v)]

/-- JS `Map.prototype.set` (value overwritten in place, new keys appended). -/
def mapSet {β : Type} (m : List (String × β)) (k : String) (v : β) :
    List (String × β) :=
  if m.any (·.1 == k) then m.map (fun p => if p.1 == k then (k, v) else p)
  else m ++ [(k, v)]

/-- `Map.prototype.get` over a map built with `mapSet` (keys are unique, so a
forward search is exact). -/
def mapLookup {β : Type} (m : List (String × β)) (k : String) : Option β :=
  (m.find? (·.1 == k)).map (·.2)

structure CompareConfig where
  keyFields : List String
  compareFields : List String
  label : String
deriving DecidableEq, Repr

/-- `buildKey` from `validator.ts`: trim + lowercase each key field, join
with `|`. -/
def buildKey (row : Row) (keyFields : List String) : String :=
  String.intercalate "|"
    (keyFields.map fun f => jsToLowerCase (jsTrim ((rowGet row f).getD "")))

/-- `` keyFields.map(() => '').join('|') `` — the all-empty key. -/
def emptyKeyOf (keyFields : List String) : String :=
  String.intercalate "|" (keyFields.map fun _ => "")

/-- `.replace(/[_. ]/g, '')`. -/
def stripSeps (s : String) : String :=
  String.mk (s.data.filter (fun c => c ≠ '_' ∧ c ≠ '.' ∧ c ≠ ' '))

/-- The `headerMap` construction of `normalizeHeaders`: for each configured
field, its best-matching actual header (exact, case-insensitive, then
separator-stripped fuzzy match). -/
def headerMapFor (headers : List String) (cfg : CompareConfig) :
    List (String × String) :=
  (jsKeys (cfg.keyFields ++ cfg.compareFields)).filterMap fun field =>
    if field ∈ headers then some (field, field)
    else
      match headers.find? (fun h => jsToLowerCase h == jsToLowerCase field) with
      | some m => some (field, m)
      | none =>
        match headers.find? (fun h =>
          stripSeps (jsToLowerCase h) == stripSeps (jsToLowerCase field)) with
        | some m => some (field, m)
        | none => none

/-- The row-remapping step of `normalizeHeaders`: configured fields first,
then original fields that are still unset (`if (!mapped[key])`). -/
def normalizeRow (headerMap : List (String × String)) (row : Row) : Row :=
  let mapped := headerMap.foldl
    (fun acc fs => objSet acc fs.1 ((rowGet row fs.2).getD "")) []
  row.foldl
    (fun acc kv => if (rowGet acc kv.1).getD "" = "" then objSet acc kv.1 kv.2 else acc)
    mapped

/-- `normalizeHeaders` from `validator.ts`. -/
def normalizeHeaders (rows : List Row) (headers : List String) (cfg : CompareConfig) :
    List Row :=
  rows.map (normalizeRow (headerMapFor headers cfg))

/-- Digit-run parser: accumulated value, number of digits consumed, rest. -/
def parseDigitsAux (acc : Nat) (cnt : Nat) : List Char → Nat × Nat × List Char
  | [] => (acc, cnt, [])
  | c :: cs =>
    if c.isDigit then parseDigitsAux (acc * 10 + (c.toNat - 48)) (cnt + 1) cs
    else (acc, cnt, c :: cs)

/-- JS `parseFloat`, modelled over exact rationals (`none` = `NaN`).  The
IEEE-754 rounding of the JS value and the `Infinity` literals are not
modelled; no claim in this development depends on them. -/
def jsParseFloat (s : String) : Option ℚ :=
  let cs := s.data.dropWhile Char.isWhitespace
  let signAndRest : ℚ × List Char :=
    match cs with
    | '-' :: r => (-1, r)
    | '+' :: r => (1, r)
    | r => (1, r)
  let ipart := parseDigitsAux 0 0 signAndRest.2
  let fpart :=
    match ipart.2.2 with
    | '.' :: r => parseDigitsAux 0 0 r
    | r => (0, 0, r)
  if ipart.2.1 + fpart.2.1 = 0 then none
  else
    let mantissa : ℚ := (ipart.1 : ℚ) + (fpart.1 : ℚ) / ((10 : ℚ) ^ fpart.2.1)
    let expDigits : Nat × Bool :=
      match fpart.2.2 with
      | 'e' :: '-' :: r => ((parseDigitsAux 0 0 r).1, (parseDigitsAux 0 0 r).2.1 > 0)
      | 'E' :: '-' :: r => ((parseDigitsAux 0 0 r).1, (parseDigitsAux 0 0 r).2.1 > 0)
      | 'e' :: '+' :: r => ((parseDigitsAux 0 0 r).1, (parseDigitsAux 0 0 r).2.1 > 0)
      | 'E' :: '+' :: r => ((parseDigitsAux 0 0 r).1, (parseDigitsAux 0 0 r).2.1 > 0)
      | 'e' :: r => ((parseDigitsAux 0 0 r).1, (parseDigitsAux 0 0 r).2.1 > 0)
      | 'E' :: r => ((parseDigitsAux 0 0 r).1, (parseDigitsAux 0 0 r).2.1 > 0)
      | _ => (0, false)
    let negExp : Bool :=
      match fpart.2.2 with
      | 'e' :: '-' :: _ => true
      | 'E' :: '-' :: _ => true
      | _ => false
    let scale : ℚ :=
      if expDigits.2 then
        if negExp then 1 / ((10 : ℚ) ^ expDigits.1) else (10 : ℚ) ^ expDigits.1
      else 1
    some (signAndRest.1 * mantissa * scale)

/-- The numeric-aware field comparison of `compareData`. -/
def valuesDiffer (sourceVal compareVal : String) : Bool :=
  match jsParseFloat sourceVal, jsParseFloat compareVal with
  | some a, some b => a != b
  | _, _ => jsToLowerCase sourceVal != jsToLowerCase compareVal

structure FieldDiff where
  field : String
  expected : String
  actual : String
deriving DecidableEq, Repr

inductive RowStatus where
  | matched
  | changed
  | added
  | removed
deriving DecidableEq, Repr

structure ComparisonRow where
  status : RowStatus
  key : String
  diffs : List FieldDiff
  sourceRow : Option Row
  compareRow : Option Row
deriving DecidableEq, Repr

structure ComparisonResult where
  dataType : String
  config : CompareConfig
  totalSource : Int
  totalCompare : Int
  matched : Int
  added : Int
  removed : Int
  changed : Int
  rows : List ComparisonRow
deriving DecidableEq, Repr

/-- The key→row index built by `compareData` (rows with an entirely empty key
are excluded). -/
def buildIndexStep (keyFields : List String) (idx : List (String × Row)) (row : Row) :
    List (String × Row) :=
  let key := buildKey row keyFields
  if key ≠ "" ∧ key ≠ emptyKeyOf keyFields then mapSet idx key row else idx

def buildIndex (rows : List Row) (keyFields : List String) : List (String × Row) :=
  rows.foldl (buildIndexStep keyFields) []

/-- Field diffs for one matched key pair. -/
def diffsFor (cfg : CompareConfig) (sourceRow compareRow : Row) : List FieldDiff :=
  cfg.compareFields.filterMap fun field =>
    let sourceVal := jsTrim ((rowGet sourceRow field).getD "")
    let compareVal := jsTrim ((rowGet compareRow field).getD "")
    if valuesDiffer sourceVal compareVal then
      some { field := field
             expected := if compareVal = "" then "(empty)" else compareVal
             actual := if sourceVal = "" then "(empty)" else sourceVal }
    else none

/-- The first result loop of `compareData`: one row per source-index entry,
collecting the processed comparison keys. -/
def sourceLoopStep (compareIndex : List (String × Row))
    (cfg : CompareConfig) (acc : List ComparisonRow × List String)
    (kv : String × Row) : List ComparisonRow × List String :=
  match mapLookup compareIndex kv.1 with
  | none =>
    (acc.1 ++ [{ status := .added, key := kv.1, diffs := [],
                 sourceRow := some kv.2, compareRow := none }], acc.2)
  | some compareRow =>
    let diffs := diffsFor cfg kv.2 compareRow
    (acc.1 ++ [{ status := if diffs.length > 0 then .changed else .matched,
                 key := kv.1, diffs := diffs,
                 sourceRow := some kv.2, compareRow := some compareRow }],
     acc.2 ++ [kv.1])

/-- `statusOrder` from `compareData`. -/
def statusOrder : RowStatus → Int
  | .changed => 0
  | .added => 1
  | .removed => 2
  | .matched => 3

/-- `compareData` with the configuration already resolved. -/
def compareDataCore (sourceRows : List Row) (compareHeaders : List String)
    (compareFileRows : List Row) (cfg : CompareConfig) : ComparisonResult :=
  let compareRows := normalizeHeaders compareFileRows compareHeaders cfg
  let compareIndex := buildIndex compareRows cfg.keyFields
  let sourceIndex := buildIndex sourceRows cfg.keyFields
  let loop1 := sourceIndex.foldl (sourceLoopStep compareIndex cfg) ([], [])
  let resultRows := loop1.1 ++ compareIndex.filterMap (fun kv =>
    if kv.1 ∈ loop1.2 then none
    else some { status := RowStatus.removed, key := kv.1, diffs := [],
                sourceRow := none, compareRow := some kv.2 })
  let sortedRows := List.insertionSort
    (fun a b => statusOrder a.status ≤ statusOrder b.status) resultRows
  { dataType := cfg.label
    config := cfg
    totalSource := sourceIndex.length
    totalCompare := compareIndex.length
    matched := (sortedRows.filter (fun r => r.status == RowStatus.matched)).length
    added := (sortedRows.filter (fun r => r.status == RowStatus.added)).length
    removed := (sortedRows.filter (fun r => r.status == RowStatus.removed)).length
    changed := (sortedRows.filter (fun r => r.status == RowStatus.changed)).length
    rows := sortedRows }

/-- The predefined `COMPARE_CONFIGS` table. -/
def COMPARE_CONFIGS : List (String × CompareConfig) :=
  [("recipes",
    { keyFields := ["locationCode", "schemeCode", "startWeek", "endWeek"]
      compareFields := ["genus", "series", "color", "growWeeks", "category", "catalogId", "notes"]
      label := "Recipes" }),
   ("catalogs",
    { keyFields := ["genus", "series", "color"], compareFields := [], label := "Catalogs" }),
   ("events",
    { keyFields := ["recipeId", "phase", "startWeek", "endWeek"]
      compareFields := ["locationCode", "triggerWeeks", "durationWeeks"]
      label := "Events" }),
   ("specs",
    { keyFields := ["recipeId", "phase"]
      compareFields := ["spaceWidth", "spaceLength", "qtyPerArea"]
      label := "Space Specs" }),
   ("mixes",
    { keyFields := ["recipeId", "catalogId", "startWeek", "endWeek"]
      compareFields := ["mixPct", "commonItem", "location", "variant", "note"]
      label := "Mixes" })]

/-- `compareData` from `validator.ts`: `none` models the thrown error for an
unknown configuration. -/
def compareData (sourceRows : List Row) (compareHeaders : List String)
    (compareFileRows : List Row) (dataType : String) (config : Option CompareConfig) :
    Option ComparisonResult :=
  match config with
  | some cfg => some (compareDataCore sourceRows compareHeaders compareFileRows cfg)
  | none =>
    match mapLookup COMPARE_CONFIGS dataType with
    | some cfg => some (compareDataCore sourceRows compareHeaders compareFileRows cfg)
    | none => none

-- ## Specification-side definitions (used to state refinement claims)

/-- A `SpaceEvent` without its sequential id. -/
structure SpaceEventData where
  recipeId : Int
  locationCode : String
  category : String
  schemeCode : String
  genus : String
  series : String
  color : String
  phase : String
  startWeek : Int
  endWeek : Int
  triggerWeeks : Int
  durationWeeks : Int
deriving DecidableEq, Repr

def eraseId (e : SpaceEvent) : SpaceEventData :=
  { recipeId := e.recipeId, locationCode := e.locationCode, category := e.category,
    schemeCode := e.schemeCode, genus := e.genus, series := e.series, color := e.color,
    phase := e.phase, startWeek := e.startWeek, endWeek := e.endWeek,
    triggerWeeks := e.triggerWeeks, durationWeeks := e.durationWeeks }

/-- Follows the words of the event claim: for one (recipe, overlapping rule)
pair, the event spans the intersection of the two windows; a non-GROW rule
takes as `triggerWeeks` the `growWeeks` of the first GROW rule fully
containing the intersection (0 if none), a GROW rule takes 0; `durationWeeks`
is the rule's `growWeeks`. -/
def eventSpecOfPair (recipe : Recipe) (growRules : List SchemeRule)
    (rule : SchemeRule) : SpaceEventData :=
  let ovStart := max recipe.startWeek rule.startWeek
  let ovEnd := min recipe.endWeek rule.endWeek
  { recipeId := recipe.id, locationCode := recipe.locationCode, category := recipe.category,
    schemeCode := recipe.schemeCode, genus := recipe.genus, series := recipe.series,
    color := recipe.color, phase := rule.phase, startWeek := ovStart, endWeek := ovEnd,
    triggerWeeks :=
      if rule.phase = "GROW" then 0
      else
        match growRules.find? (fun g =>
          decide (ovStart ≥ g.startWeek) && decide (ovEnd ≤ g.endWeek)) with
        | some g => g.growWeeks
        | none => 0,
    durationWeeks := rule.growWeeks }

/-- Follows the words of the event claim: exactly one event per (recipe,
rule) pair of the recipe's unmerged scheme rules whose window overlaps the
recipe's window (`recipe.startWeek ≤ rule.endWeek` and
`recipe.endWeek ≥ rule.startWeek`), in traversal order. -/
def eventSpecList (recipes : List Recipe) (dict : SchemeDictionary) :
    List SpaceEventData :=
  recipes.flatMap fun recipe =>
    match dictFind dict recipe.schemeCode with
    | none => []
    | some rules =>
      (rules.filter fun rule =>
        decide (recipe.startWeek ≤ rule.endWeek) && decide (recipe.endWeek ≥ rule.startWeek)).map
        (eventSpecOfPair recipe (rules.filter (fun r => r.phase == "GROW")))

-- ## Concrete fixtures used by witnesses and counterexamples

/-- Rule set with a GROW-covered window, an additive HANG phase and an
uncovered HANG-only window (which the merger drops). -/
def rulesW : List SchemeRule :=
  [⟨1, 10, 6, "GROW"⟩, ⟨5, 10, 2, "HANG"⟩, ⟨20, 30, 3, "HANG"⟩]

/-- A scheme line with no matching period rows. -/
def lineNoPeriods : ProductionSchemeLine :=
  ⟨"S1", "10000", "GROW", 6, 4, 1⟩

/-- A scheme line with two matching period rows (periodNo 30 listed first). -/
def lineWithPeriods : ProductionSchemeLine :=
  ⟨"S2", "20000", "GROW", 6, 4, 1⟩

def periodsW : List ProductionSchemeLinePeriod :=
  [⟨"S2", "20000", "GROW", 21, 30⟩, ⟨"S2", "20000", "GROW", 14, 10⟩]

/-- The empty parsed dataset. -/
def emptyData : ParsedData :=
  { schemes := [], schemeLines := [], schemeLinePeriods := [], preferences := [],
    mixRows := [] }

/-- The mix-breakout round-trip fixture of the claim: weekly percentages
`{1:50, 2:50, 3:50, 4:75, 5:75}`. -/
def mixRowT : MixRow :=
  { location := "L", commonItem := "C", productionItem := "P", variantCode := "V",
    weeklyPcts := [(1, 50), (2, 50), (3, 50), (4, 75), (5, 75)] }

/-- A recipe with window `[1, 10]` at the mix row's location and production
item. -/
def recipeT : Recipe :=
  { id := 1, locationCode := "L", category := "CAT", schemeCode := "S", genus := "G",
    series := "P", color := "V", startWeek := 1, endWeek := 10, growWeeks := 6,
    notes := "S", catalogId := none }

def dataT : ParsedData :=
  { schemes := [], schemeLines := [], schemeLinePeriods := [], preferences := [],
    mixRows := [mixRowT] }

/-- A mix row with non-empty production item `"x|"` containing the key
separator character. -/
def mixRowX : MixRow :=
  { location := "L", commonItem := "C", productionItem := "x|", variantCode := "",
    weeklyPcts := [(1, 50)] }

def recipeX : Recipe :=
  { id := 7, locationCode := "L", category := "CAT", schemeCode := "S", genus := "g",
    series := "x|", color := "", startWeek := 1, endWeek := 10, growWeeks := 6,
    notes := "S", catalogId := none }

/-- Catalogs as `generateCatalogs` produces them (empty series and color),
one of them with a `'|'` inside the genus. -/
def catalogsX : List Catalog := [⟨1, "g|x", "", ""⟩, ⟨2, "g", "", ""⟩]

def dataX : ParsedData :=
  { schemes := [], schemeLines := [], schemeLinePeriods := [], preferences := [],
    mixRows := [mixRowX] }

/-- The end-to-end scenario dataset of the spec (one GROW line, one
preference). -/
def dataZ : ParsedData :=
  { schemes := [⟨"BN-10INMUM-NSLN-SP", "d", "NSLN"⟩]
    schemeLines := [⟨"BN-10INMUM-NSLN-SP", "10000", "GROW", 6, 4, 1⟩]
    schemeLinePeriods := []
    preferences := [⟨"4000084", "B01", "KY01", "BN-10INMUM-NSLN-SP", "", ""⟩]
    mixRows := [] }

/-- The single event the scenario dataset produces. -/
def eventW : SpaceEvent :=
  ⟨1, 1, "KY01", "10INMUM", "BN-10INMUM-NSLN-SP", "NSLN", "4000084", "B01", "GROW",
   1, 53, 0, 6⟩

/-- Source rows for the comparison fixture. -/
def srcRowsW : List Row :=
  [[("genus", "g1"), ("series", "s"), ("color", "c")],
   [("genus", "g2"), ("series", "s"), ("color", "c")]]

/-- Reference rows for the comparison fixture (one shared key, one only
here). -/
def cmpRowsW : List Row :=
  [[("Genus", "g1"), ("Series", "s"), ("Color", "c")],
   [("Genus", "g3"), ("Series", "s"), ("Color", "c")]]

def cmpHeadersW : List String := ["Genus", "Series", "Color"]

def catalogsCfg : CompareConfig :=
  { keyFields := ["genus", "series", "color"], compareFields := [], label := "Catalogs" }

/-- The dedup key of an emitted recipe. -/
def recipeKeyOf (r : Recipe) : String :=
  recipeKey r.locationCode r.schemeCode r.startWeek r.endWeek

/-- The period rows matching one scheme line's `(schemeCode, lineNo, phase)`
group. -/
def matchingPeriods (allPeriods : List ProductionSchemeLinePeriod)
    (line : ProductionSchemeLine) : List ProductionSchemeLinePeriod :=
  periodsFor allPeriods (periodKey line.schemeCode line.lineNo line.phase)

/-- Defaults used with `List.getD` in indexed statements. -/
def pDummy : ProductionSchemeLinePeriod := ⟨"", "", "", 0, 0⟩

def ruleDummy : SchemeRule := ⟨0, 0, 0, ""⟩

/-- The composite keys present in the source (generated output) index of a
`compareData` run. -/
def sourceKeys (sourceRows : List Row) (cfg : CompareConfig) : List String :=
  (buildIndex sourceRows cfg.keyFields).map Prod.fst

/-- The composite keys present in the comparison (reference) index of a
`compareData` run. -/
def compareKeys (compareFileRows : List Row) (compareHeaders : List String)
    (cfg : CompareConfig) : List String :=
  (buildIndex (normalizeHeaders compareFileRows compareHeaders cfg) cfg.keyFields).map Prod.fst

/-- The result row produced by the first `compareData` loop for one
source-index entry. -/
def sourceRowFor (compareIndex : List (String × Row)) (cfg : CompareConfig)
    (kv : String × Row) : ComparisonRow :=
  match mapLookup compareIndex kv.1 with
  | none =>
    { status := .added, key := kv.1, diffs := [], sourceRow := some kv.2, compareRow := none }
  | some compareRow =>
    let diffs := diffsFor cfg kv.2 compareRow
    { status := if diffs.length > 0 then .changed else .matched, key := kv.1, diffs := diffs,
      sourceRow := some kv.2, compareRow := some compareRow }

-- # Theorems

-- ## Lemmas about the JS collection models

theorem mem_foldl_jsKeys {α : Type} [DecidableEq α] (l : List α) (acc : List α) (x : α) :
    x ∈ l.foldl (fun acc k => if k ∈ acc then acc else acc ++ [k]) acc ↔
      x ∈ acc ∨ x ∈ l := by
  induction l generalizing acc with
  | nil => simp
  | cons a t ih =>
    simp only [List.foldl_cons]
    rw [ih]
    by_cases h : a ∈ acc
    · simp only [if_pos h, List.mem_cons]
      constructor
      · rintro (hx | hx)
        · exact Or.inl hx
        · exact Or.inr (Or.inr hx)
      · rintro (hx | rfl | hx)
        · exact Or.inl hx
        · exact Or.inl h
        · exact Or.inr hx
    · simp only [if_neg h, List.mem_append, List.mem_singleton, List.mem_cons]
      tauto

theorem nodup_foldl_jsKeys {α : Type} [DecidableEq α] (l : List α) (acc : List α)
    (h : acc.Nodup) :
    (l.foldl (fun acc k => if k ∈ acc then acc else acc ++ [k]) acc).Nodup := by
  induction l generalizing acc with
  | nil => simpa using h
  | cons a t ih =>
    simp only [List.foldl_cons]
    by_cases ha : a ∈ acc
    · rw [if_pos ha]; exact ih acc h
    · rw [if_neg ha]
      refine ih _ (List.nodup_append.2 ⟨h, List.nodup_singleton a, ?_⟩)
      intro x hx hxa
      rw [List.mem_singleton] at hxa
      exact ha (hxa ▸ hx)

theorem mem_jsKeys {α : Type} [DecidableEq α] {l : List α} {x : α} :
    x ∈ jsKeys l ↔ x ∈ l := by
  unfold jsKeys
  rw [mem_foldl_jsKeys]
  simp

theorem jsKeys_nodup {α : Type} [DecidableEq α] (l : List α) : (jsKeys l).Nodup :=
  nodup_foldl_jsKeys l [] List.nodup_nil

theorem intSort_pairwise_le (l : List Int) :
    List.Pairwise (· ≤ ·) (List.insertionSort (fun a b => a ≤ b) l) :=
  List.sorted_insertionSort (fun a b => a ≤ b) l

theorem sortedBreakpoints_pairwise_lt (rules : List SchemeRule) :
    List.Pairwise (· < ·) (sortedBreakpoints rules) := by
  have hperm : (sortedBreakpoints rules).Perm (breakpointList rules) :=
    List.perm_insertionSort _ _
  have hnd : (sortedBreakpoints rules).Nodup :=
    hperm.nodup_iff.2 (jsKeys_nodup _)
  have hle : List.Pairwise (· ≤ ·) (sortedBreakpoints rules) := intSort_pairwise_le _
  exact (hle.and hnd).imp (fun h => lt_of_le_of_ne h.1 h.2)

theorem mem_sortedBreakpoints {rules : List SchemeRule} {x : Int} :
    x ∈ sortedBreakpoints rules ↔ x ∈ breakpointList rules :=
  (List.perm_insertionSort _ _).mem_iff

theorem rule_bounds_mem_sortedBreakpoints {rules : List SchemeRule} {r : SchemeRule}
    (hr : r ∈ rules) :
    r.startWeek ∈ sortedBreakpoints rules ∧ r.endWeek + 1 ∈ sortedBreakpoints rules := by
  constructor <;>
  · rw [mem_sortedBreakpoints]
    unfold breakpointList
    rw [mem_jsKeys, List.mem_append]
    left
    rw [List.mem_flatMap]
    exact ⟨r, hr, by simp⟩

theorem zip_tail_getElem :
    ∀ (l : List Int) (ab : Int × Int), ab ∈ l.zip l.tail →
      ∃ i, l[i]? = some ab.1 ∧ l[i + 1]? = some ab.2 := by
  intro l
  induction l with
  | nil => intro ab h; simp at h
  | cons x t ih =>
    intro ab h
    cases t with
    | nil => simp at h
    | cons y t2 =>
      simp only [List.tail_cons, List.zip_cons_cons, List.mem_cons] at h
      rcases h with h1 | h2
      · exact ⟨0, by simp [h1], by simp [h1]⟩
      · have h3 : ab ∈ (y :: t2).zip (y :: t2).tail := by simpa using h2
        obtain ⟨i, hi1, hi2⟩ := ih ab h3
        exact ⟨i + 1, by simpa using hi1, by simpa using hi2⟩

theorem between_of_pairwise_lt {l : List Int} (hl : List.Pairwise (· < ·) l)
    {i : Nat} {a b c : Int} (ha : l[i]? = some a) (hb : l[i + 1]? = some b)
    (hc : c ∈ l) : c ≤ a ∨ b ≤ c := by
  rw [List.getElem?_eq_some_iff] at ha hb
  obtain ⟨hi, ha⟩ := ha
  obtain ⟨hi1, hb⟩ := hb
  obtain ⟨j, hj, hcj⟩ := List.mem_iff_getElem.1 hc
  rw [List.pairwise_iff_getElem] at hl
  rcases lt_trichotomy j i with h | h | h
  · left; rw [← ha, ← hcj]; exact le_of_lt (hl j i hj hi h)
  · left; subst h; rw [← ha, ← hcj]
  · right
    rcases Nat.lt_or_ge (i + 1) j with h2 | h2
    · rw [← hb, ← hcj]; exact le_of_lt (hl (i + 1) j hi1 hj h2)
    · have : j = i + 1 := le_antisymm (by omega) (by omega)
      subst this; rw [← hb, ← hcj]

-- ## Lemmas about `mergeGrowAndSpace`

theorem findGrowRule_some {rules : List SchemeRule} {a b : Int} {g : SchemeRule}
    (h : findGrowRule rules a b = some g) :
    g ∈ rules ∧ g.phase = "GROW" ∧ g.startWeek ≤ a ∧ b ≤ g.endWeek := by
  refine ⟨List.mem_of_find?_eq_some h, ?_⟩
  have hp := List.find?_some h
  simp only [Bool.and_eq_true, beq_iff_eq, decide_eq_true_eq, ge_iff_le] at hp
  exact ⟨hp.1.1, hp.1.2, hp.2⟩

theorem mergeGrowAndSpace_mem {rules : List SchemeRule} {s : SchemeRule}
    (h : s ∈ mergeGrowAndSpace rules) :
    ∃ ab ∈ (sortedBreakpoints rules).zip (sortedBreakpoints rules).tail,
      ab.1 ≤ ab.2 - 1 ∧
      ∃ g, findGrowRule rules ab.1 (ab.2 - 1) = some g ∧
        s = ⟨ab.1, ab.2 - 1, g.growWeeks + extraWeeksFor rules ab.1 (ab.2 - 1), "GROW"⟩ := by
  unfold mergeGrowAndSpace at h
  rw [List.mem_filterMap] at h
  obtain ⟨ab, hab, hf⟩ := h
  refine ⟨ab, hab, ?_⟩
  unfold mergeSegment at hf
  by_cases hle : ab.1 > ab.2 - 1
  · rw [if_pos hle] at hf; exact absurd hf (by simp)
  · rw [if_neg hle] at hf
    refine ⟨le_of_not_lt hle, ?_⟩
    cases hg : findGrowRule rules ab.1 (ab.2 - 1) with
    | none => rw [hg] at hf; exact absurd hf (by simp)
    | some g =>
      rw [hg] at hf
      exact ⟨g, rfl, (Option.some.inj hf).symm⟩

/-- Any source rule whose window overlaps a merged segment fully contains
that segment: segment boundaries are consecutive breakpoints, and every
rule's boundaries are breakpoints. -/
theorem mergeSeg_contains {rules : List SchemeRule} {s : SchemeRule}
    (hs : s ∈ mergeGrowAndSpace rules) {r : SchemeRule} (hr : r ∈ rules)
    (h1 : r.startWeek ≤ s.endWeek) (h2 : s.startWeek ≤ r.endWeek) :
    r.startWeek ≤ s.startWeek ∧ s.endWeek ≤ r.endWeek := by
  obtain ⟨ab, hab, hle, g, hg, rfl⟩ := mergeGrowAndSpace_mem hs
  simp only at h1 h2 ⊢
  obtain ⟨i, hi1, hi2⟩ := zip_tail_getElem _ ab hab
  have hlt := sortedBreakpoints_pairwise_lt rules
  obtain ⟨hms, hme⟩ := rule_bounds_mem_sortedBreakpoints hr
  have hstart := between_of_pairwise_lt hlt hi1 hi2 hms
  have hend := between_of_pairwise_lt hlt hi1 hi2 hme
  constructor
  · rcases hstart with h | h
    · exact h
    · omega
  · rcases hend with h | h
    · omega
    · omega

theorem extraWeeksFor_eq_sum (rules : List SchemeRule) (a b : Int) :
    extraWeeksFor rules a b =
      ((rules.filter (fun x =>
          decide (x.phase ≠ "GROW" ∧ x.phase ≠ "INVENTORY" ∧
            x.startWeek ≤ a ∧ b ≤ x.endWeek))).map (·.growWeeks)).sum := by
  unfold extraWeeksFor
  suffices h : ∀ (l : List SchemeRule) (acc : Int),
      l.foldl (fun acc r =>
        if r.phase ≠ "GROW" ∧ r.phase ≠ "INVENTORY" ∧ a ≥ r.startWeek ∧ b ≤ r.endWeek
        then acc + r.growWeeks else acc) acc =
      acc + ((l.filter (fun x =>
          decide (x.phase ≠ "GROW" ∧ x.phase ≠ "INVENTORY" ∧
            x.startWeek ≤ a ∧ b ≤ x.endWeek))).map (·.growWeeks)).sum by
    rw [h rules 0, zero_add]
  intro l
  induction l with
  | nil => intro acc; simp
  | cons r t ih =>
    intro acc
    by_cases hc : r.phase ≠ "GROW" ∧ r.phase ≠ "INVENTORY" ∧ a ≥ r.startWeek ∧ b ≤ r.endWeek
    · have hc2 : r.phase ≠ "GROW" ∧ r.phase ≠ "INVENTORY" ∧
          r.startWeek ≤ a ∧ b ≤ r.endWeek := hc
      simp only [List.foldl_cons, if_pos hc, List.filter_cons, decide_eq_true hc2, ite_true,
        List.map_cons, List.sum_cons]
      rw [ih]
      ring
    · have hc2 : ¬(r.phase ≠ "GROW" ∧ r.phase ≠ "INVENTORY" ∧
          r.startWeek ≤ a ∧ b ≤ r.endWeek) := hc
      simp only [List.foldl_cons, if_neg hc, List.filter_cons, decide_eq_false hc2,
        Bool.false_eq_true, ite_false]
      exact ih acc

/-- C1: every segment emitted by `mergeGrowAndSpace` has phase GROW and is
fully contained in the week window of some GROW-phase source rule; a
candidate segment between consecutive breakpoints that is contained in no
GROW-phase source rule is absent from the output (no output segment starts at
its start week). -/
theorem intervalMerger_grow_coverage (rules : List SchemeRule) :
    (∀ s ∈ mergeGrowAndSpace rules, s.phase = "GROW" ∧
      ∃ r ∈ rules, r.phase = "GROW" ∧ r.startWeek ≤ s.startWeek ∧ s.endWeek ≤ r.endWeek) ∧
    (∀ ab ∈ (sortedBreakpoints rules).zip (sortedBreakpoints rules).tail,
      (∀ r ∈ rules, r.phase = "GROW" → ¬(r.startWeek ≤ ab.1 ∧ ab.2 - 1 ≤ r.endWeek)) →
      ∀ s ∈ mergeGrowAndSpace rules, s.startWeek ≠ ab.1) := by
  constructor
  · intro s hs
    obtain ⟨ab, hab, hle, g, hg, rfl⟩ := mergeGrowAndSpace_mem hs
    obtain ⟨hg1, hg2, hg3, hg4⟩ := findGrowRule_some hg
    exact ⟨rfl, g, hg1, hg2, hg3, hg4⟩
  · intro ab hab hnone s hs heq
    obtain ⟨ab', hab', hle', g, hg, rfl⟩ := mergeGrowAndSpace_mem hs
    dsimp only at heq
    obtain ⟨i, hi1, hi2⟩ := zip_tail_getElem _ ab' hab'
    obtain ⟨j, hj1, hj2⟩ := zip_tail_getElem _ ab hab
    have hnd : (sortedBreakpoints rules).Nodup :=
      (List.perm_insertionSort _ _).nodup_iff.2 (jsKeys_nodup _)
    rw [List.getElem?_eq_some_iff] at hi1 hi2 hj1 hj2
    obtain ⟨hi, hia⟩ := hi1
    obtain ⟨hisucc, hib⟩ := hi2
    obtain ⟨hjlen, hja⟩ := hj1
    obtain ⟨hjsucc, hjb⟩ := hj2
    have hij : i = j := by
      refine (@List.Nodup.getElem_inj_iff _ _ hnd i hi j hjlen).1 ?_
      rw [hia, hja, heq]
    subst hij
    have hb2 : ab'.2 = ab.2 := by rw [← hib, ← hjb]
    obtain ⟨hg1, hg2, hg3, hg4⟩ := findGrowRule_some hg
    exact hnone g hg1 hg2 ⟨by omega, by omega⟩

/-- Witness for C1 on the concrete rule set `rulesW`: the emitted segment
`[5,10]` is covered by the GROW rule, and for the uncovered candidate
`[20,30]` no output segment starts at week 20. -/
theorem intervalMerger_grow_coverage_w :
    ((⟨5, 10, 8, "GROW"⟩ : SchemeRule).phase = "GROW" ∧
      ∃ r ∈ rulesW, r.phase = "GROW" ∧
        r.startWeek ≤ (⟨5, 10, 8, "GROW"⟩ : SchemeRule).startWeek ∧
        (⟨5, 10, 8, "GROW"⟩ : SchemeRule).endWeek ≤ r.endWeek) ∧
    (⟨1, 4, 6, "GROW"⟩ : SchemeRule).startWeek ≠ 20 :=
  ⟨(intervalMerger_grow_coverage rulesW).1 ⟨5, 10, 8, "GROW"⟩ (by decide),
   (intervalMerger_grow_coverage rulesW).2 (20, 31) (by decide) (by decide)
     ⟨1, 4, 6, "GROW"⟩ (by decide)⟩

/-- C3: every emitted segment's `growWeeks` is the `growWeeks` of a GROW
rule fully containing it plus the sum of `growWeeks` over all containing
rules whose phase is neither GROW nor INVENTORY. -/
theorem intervalMerger_growWeeks (rules : List SchemeRule) :
    ∀ s ∈ mergeGrowAndSpace rules,
      ∃ r ∈ rules, r.phase = "GROW" ∧ r.startWeek ≤ s.startWeek ∧ s.endWeek ≤ r.endWeek ∧
        s.growWeeks = r.growWeeks +
          ((rules.filter (fun x =>
              decide (x.phase ≠ "GROW" ∧ x.phase ≠ "INVENTORY" ∧
                x.startWeek ≤ s.startWeek ∧ s.endWeek ≤ x.endWeek))).map
            (·.growWeeks)).sum := by
  intro s hs
  obtain ⟨ab, hab, hle, g, hg, rfl⟩ := mergeGrowAndSpace_mem hs
  obtain ⟨hg1, hg2, hg3, hg4⟩ := findGrowRule_some hg
  refine ⟨g, hg1, hg2, hg3, hg4, ?_⟩
  dsimp only
  rw [extraWeeksFor_eq_sum]

-- ## Lemmas about `buildSchemeDictionary`

theorem daysToWeeks_mul_seven (x : ℚ) : daysToWeeks (x * 7) = jsRound x := by
  unfold daysToWeeks
  congr 1
  exact mul_div_cancel_right₀ x (by norm_num)

theorem periodRules_length (l : List ProductionSchemeLinePeriod) :
    (periodRules l).length = l.length := by
  induction l with
  | nil => rfl
  | cons p rest ih => simp [periodRules, ih]

theorem periodRules_getD (l : List ProductionSchemeLinePeriod) (i : Nat)
    (h : i < l.length) :
    (periodRules l).getD i ruleDummy =
      ⟨(l.getD i pDummy).periodNo,
       if i + 1 < l.length then (l.getD (i + 1) pDummy).periodNo - 1 else 53,
       daysToWeeks (l.getD i pDummy).days,
       (l.getD i pDummy).phase⟩ := by
  induction l generalizing i with
  | nil => simp at h
  | cons p rest ih =>
    cases i with
    | zero =>
      cases rest with
      | nil => simp [periodRules]
      | cons q r2 => simp [periodRules]
    | succ n =>
      have hn : n < rest.length := by simpa using h
      have := ih n hn
      simp only [periodRules, List.getD_cons_succ, List.length_cons] at this ⊢
      rw [this]
      have hiff : n + 1 < rest.length ↔ n + 1 + 1 < rest.length + 1 := by omega
      by_cases hlt : n + 1 < rest.length
      · rw [if_pos hlt, if_pos (by omega)]
      · rw [if_neg hlt, if_neg (by omega)]

theorem sortPeriods_pairwise (ps : List ProductionSchemeLinePeriod) :
    List.Pairwise (fun a b => a.periodNo ≤ b.periodNo) (sortPeriods ps) := by
  haveI h1 : IsTotal ProductionSchemeLinePeriod (fun a b => a.periodNo ≤ b.periodNo) :=
    ⟨fun a b => le_total _ _⟩
  haveI h2 : IsTrans ProductionSchemeLinePeriod (fun a b => a.periodNo ≤ b.periodNo) :=
    ⟨fun _ _ _ hab hbc => le_trans hab hbc⟩
  exact List.sorted_insertionSort _ ps

/-- C2: a line with no matching period rows yields exactly one rule
`{1, 53, round(duration), phase}`; a line with matching period rows yields,
over the list sorted ascending by `periodNo`, one rule per period with
`[periodNo_i, periodNo_(i+1) - 1]` (53 for the last) and
`growWeeks = round(days / 7)`; `buildSchemeDictionary` assembles exactly
these per-line rule lists for each scheme code. -/
theorem schemeRuleBuilder_spec :
    (∀ data : ParsedData, ∀ e ∈ buildSchemeDictionary data,
      e.2 = (data.schemeLines.filter (fun l => l.schemeCode == e.1)).flatMap
        (rulesForLine data.schemeLinePeriods)) ∧
    (∀ (allPeriods : List ProductionSchemeLinePeriod) (line : ProductionSchemeLine),
      (matchingPeriods allPeriods line = [] →
        rulesForLine allPeriods line = [⟨1, 53, jsRound line.duration, line.phase⟩]) ∧
      (matchingPeriods allPeriods line ≠ [] →
        List.Pairwise (fun a b => a.periodNo ≤ b.periodNo)
          (sortPeriods (matchingPeriods allPeriods line)) ∧
        (sortPeriods (matchingPeriods allPeriods line)).Perm
          (matchingPeriods allPeriods line) ∧
        (rulesForLine allPeriods line).length =
          (sortPeriods (matchingPeriods allPeriods line)).length ∧
        ∀ i < (sortPeriods (matchingPeriods allPeriods line)).length,
          (rulesForLine allPeriods line).getD i ruleDummy =
            ⟨((sortPeriods (matchingPeriods allPeriods line)).getD i pDummy).periodNo,
             if i + 1 < (sortPeriods (matchingPeriods allPeriods line)).length then
               ((sortPeriods (matchingPeriods allPeriods line)).getD (i + 1) pDummy).periodNo - 1
             else 53,
             jsRound (((sortPeriods (matchingPeriods allPeriods line)).getD i pDummy).days / 7),
             ((sortPeriods (matchingPeriods allPeriods line)).getD i pDummy).phase⟩)) := by
  constructor
  · intro data e he
    unfold buildSchemeDictionary at he
    rw [List.mem_map] at he
    obtain ⟨code, _, rfl⟩ := he
    rfl
  · intro allPeriods line
    constructor
    · intro hempty
      unfold rulesForLine
      unfold matchingPeriods at hempty
      rw [hempty]
      simp only [List.isEmpty_nil, ite_true]
      rw [daysToWeeks_mul_seven]
    · intro hne
      have hrfl : rulesForLine allPeriods line =
          periodRules (sortPeriods (matchingPeriods allPeriods line)) := by
        unfold rulesForLine matchingPeriods
        unfold matchingPeriods at hne
        rw [if_neg (by simpa [List.isEmpty_iff] using hne)]
      refine ⟨sortPeriods_pairwise _, List.perm_insertionSort _ _, ?_, ?_⟩
      · rw [hrfl, periodRules_length]
      · intro i hi
        rw [hrfl, periodRules_getD _ i hi]
        rfl

/-- Witness for C2: the no-period line gives the single full-year rule; the
two-period line (periods listed out of order) gives rules `[10,29]` and
`[30,53]`. -/
theorem schemeRuleBuilder_spec_w :
    (rulesForLine [] lineNoPeriods =
      [⟨1, 53, jsRound lineNoPeriods.duration, lineNoPeriods.phase⟩]) ∧
    ((rulesForLine periodsW lineWithPeriods).getD 0 ruleDummy =
      ⟨((sortPeriods (matchingPeriods periodsW lineWithPeriods)).getD 0 pDummy).periodNo,
       if 0 + 1 < (sortPeriods (matchingPeriods periodsW lineWithPeriods)).length then
         ((sortPeriods (matchingPeriods periodsW lineWithPeriods)).getD (0 + 1) pDummy).periodNo - 1
       else 53,
       jsRound (((sortPeriods (matchingPeriods periodsW lineWithPeriods)).getD 0 pDummy).days / 7),
       ((sortPeriods (matchingPeriods periodsW lineWithPeriods)).getD 0 pDummy).phase⟩) :=
  ⟨(schemeRuleBuilder_spec.2 [] lineNoPeriods).1 (by decide),
   (((schemeRuleBuilder_spec.2 periodsW lineWithPeriods).2 (by decide)).2.2.2) 0 (by decide)⟩

/-- Witness for C3 on `rulesW`: the segment `[5,10]` carries
`growWeeks = 6 (GROW baseline) + 2 (HANG)`. -/
theorem intervalMerger_growWeeks_w :
    ∃ r ∈ rulesW, r.phase = "GROW" ∧
      r.startWeek ≤ (⟨5, 10, 8, "GROW"⟩ : SchemeRule).startWeek ∧
      (⟨5, 10, 8, "GROW"⟩ : SchemeRule).endWeek ≤ r.endWeek ∧
      (⟨5, 10, 8, "GROW"⟩ : SchemeRule).growWeeks = r.growWeeks +
        ((rulesW.filter (fun x =>
            decide (x.phase ≠ "GROW" ∧ x.phase ≠ "INVENTORY" ∧
              x.startWeek ≤ (⟨5, 10, 8, "GROW"⟩ : SchemeRule).startWeek ∧
              (⟨5, 10, 8, "GROW"⟩ : SchemeRule).endWeek ≤ x.endWeek))).map
          (·.growWeeks)).sum :=
  intervalMerger_growWeeks rulesW ⟨5, 10, 8, "GROW"⟩ (by decide)

-- ## C8: fatal empty input

/-- C8: when the schemes collection or the scheme-lines collection is empty,
`transform` returns every output collection empty and a non-empty error
list. -/
theorem transform_fatal_empty (data : ParsedData)
    (h : data.schemes = [] ∨ data.schemeLines = []) :
    (transform data).catalogs = [] ∧ (transform data).recipes = [] ∧
    (transform data).events = [] ∧ (transform data).specs = [] ∧
    (transform data).mixes = [] ∧ (transform data).errors ≠ [] := by
  have hpos : 0 < (transformErrors data).length := by
    rcases h with h | h <;> simp [transformErrors, h]
  unfold transform
  rw [if_pos hpos]
  exact ⟨rfl, rfl, rfl, rfl, rfl, List.length_pos.1 hpos⟩

/-- Witness for C8 at the empty dataset. -/
theorem transform_fatal_empty_w :
    (emptyData.schemes = [] ∨ emptyData.schemeLines = []) ∧
    ((transform emptyData).catalogs = [] ∧ (transform emptyData).recipes = [] ∧
     (transform emptyData).events = [] ∧ (transform emptyData).specs = [] ∧
     (transform emptyData).mixes = [] ∧ (transform emptyData).errors ≠ []) :=
  ⟨Or.inl rfl, transform_fatal_empty emptyData (Or.inl rfl)⟩

-- ## C7: validation of the all-empty dataset

/-- Counterexample to C7: on the dataset with zero schemes, zero lines and
zero preferences the validator reports 3 errors and 1 warning, so the
quality score is `100 - 25*3 - 5*1 = 20` after clamping — not 0 as
claimed. -/
theorem validation_empty_score_cx :
    ((validateParsedData emptyData).issues.filter
        (fun i => i.severity == Severity.error)).length = 3 ∧
    (validateParsedData emptyData).qualityScore = 20 ∧
    ¬((validateParsedData emptyData).qualityScore = 0) ∧
    (validateParsedData emptyData).canTransform = false := by
  refine ⟨by decide, by decide, by decide, by decide⟩

/-- C7 amended: zero schemes, zero lines and zero preferences give exactly 3
error issues and 1 warning issue (the missing-periods warning), so the
quality score is `clamp(100 - 25*3 - 5*1) = 20`, and `canTransform` is
false. -/
theorem validation_empty_score :
    ((validateParsedData emptyData).issues.filter
        (fun i => i.severity == Severity.error)).length = 3 ∧
    ((validateParsedData emptyData).issues.filter
        (fun i => i.severity == Severity.warning)).length = 1 ∧
    (validateParsedData emptyData).qualityScore =
      max 0 (min 100 (100 - 25 * 3 - 5 * 1)) ∧
    (validateParsedData emptyData).canTransform = false := by
  refine ⟨by decide, by decide, by decide, by decide⟩

-- ## C6: mix-breakout round trip

/-- C6: the mix row with weekly percentages `{1:50, 2:50, 3:50, 4:75, 5:75}`
matched against a recipe with window `[1,10]` at its location and production
item yields exactly two segments: pct 50 over `[1,3]` and pct 75 over
`[4,5]`. -/
theorem mixBreakout_roundtrip :
    ((generateMixes dataT [recipeT] []).1).map
        (fun m => (m.mixPct, m.startWeek, m.endWeek)) =
      [(50, 1, 3), (75, 4, 5)] ∧
    ((generateMixes dataT [recipeT] []).1).length = 2 := by
  refine ⟨by decide, by decide⟩

-- ## C10: catalog shape and the exact variant lookup

/-- Counterexample to C10: when a genus contains the `'|'` key separator, a
mix row with non-empty `productionItem` can resolve its catalog through the
exact variant lookup — here the emitted mix carries `catalogId = 1` (the
exact match on genus `"g|x"`), while the genus-only fallback for the
recipe's genus `"g"` would give id 2. -/
theorem catalog_exact_lookup_cx :
    ((generateMixes dataX [recipeX] catalogsX).1).map (·.catalogId) = [1] ∧
    ((catalogsX.find? (fun c =>
        jsToLowerCase c.genus == jsToLowerCase recipeX.genus)).map (·.id)) = some 2 ∧
    mixRowX.productionItem ≠ "" ∧
    (∀ c ∈ catalogsX, c.series = "" ∧ c.color = "") := by
  refine ⟨by decide, by decide, by decide, by decide⟩

theorem jsToLowerCase_data (s : String) :
    (jsToLowerCase s).data = s.data.map Char.toLower := rfl

/-- For `'|'`-free components, a key of the form `G ++ "||"` can never equal
a key `g ++ "|" ++ p ++ "|" ++ v` with `p` or `v` nonempty. -/
theorem pipe_key_ne {G g p v : List Char} (_hG : '|' ∉ G) (_hg : '|' ∉ g)
    (hp : '|' ∉ p) (hv : '|' ∉ v) (hne : p ≠ [] ∨ v ≠ []) :
    G ++ ['|', '|'] ≠ g ++ '|' :: (p ++ '|' :: v) := by
  intro h
  have hrev := congrArg List.reverse h
  simp only [List.reverse_append, List.reverse_cons, List.append_assoc,
    List.reverse_nil, List.nil_append, List.cons_append, List.singleton_append] at hrev
  -- hrev : '|' :: '|' :: G.reverse = v.reverse ++ '|' :: p.reverse ++ '|' :: g.reverse
  cases hvr : v.reverse with
  | cons x t =>
    rw [hvr] at hrev
    have hx : x ∈ v := by
      have : x ∈ v.reverse := by rw [hvr]; exact List.mem_cons_self x t
      exact List.mem_reverse.1 this
    injection hrev with h1 h2
    exact hv (h1 ▸ hx)
  | nil =>
    rw [hvr, List.nil_append] at hrev
    injection hrev with h1 hrev2
    cases hpr : p.reverse with
    | cons y t2 =>
      rw [hpr] at hrev2
      have hy : y ∈ p := by
        have : y ∈ p.reverse := by rw [hpr]; exact List.mem_cons_self y t2
        exact List.mem_reverse.1 this
      injection hrev2 with h3 h4
      exact hp (h3 ▸ hy)
    | nil =>
      have hpnil : p = [] := by
        have := congrArg List.reverse hpr
        simpa using this
      have hvnil : v = [] := by
        have := congrArg List.reverse hvr
        simpa using this
      rcases hne with hne | hne
      · exact hne hpnil
      · exact hne hvnil

theorem string_ne_empty_data {s : String} (h : s ≠ "") : s.data ≠ [] := by
  intro hd
  apply h
  cases s with
  | mk d =>
    have hd2 : d = [] := hd
    rw [hd2]

/-- C10 amended: every catalog emitted by `generateCatalogs` has empty
series and color, exactly one per distinct genus in first-occurrence order
with ids 1..n; consequently the exact variant lookup key of a catalog is
`genus ++ "||"`, and — provided none of the involved strings contains the
`'|'` separator — a mix row with a non-empty `productionItem` or
`variantCode` can never resolve a catalog through the exact lookup (it can
only fall through to the genus-only fallback).  With `'|'` inside a genus
the exact lookup can fire, as the counterexample shows. -/
theorem catalog_exact_lookup_amended :
    (∀ data : ParsedData,
      (∀ c ∈ generateCatalogs data, c.series = "" ∧ c.color = "") ∧
      (generateCatalogs data).map (·.genus) = jsKeys (data.schemes.map (·.genusCode)) ∧
      (generateCatalogs data).map (·.id) =
        (List.range' 1 (generateCatalogs data).length).map (fun n => (n : Int))) ∧
    (∀ catalogs : List Catalog,
      (∀ c ∈ catalogs, c.series = "" ∧ c.color = "" ∧
          '|' ∉ (jsToLowerCase c.genus).data) →
      ∀ g pi vc : String,
        '|' ∉ (jsToLowerCase g).data → '|' ∉ (jsToLowerCase pi).data →
        '|' ∉ (jsToLowerCase vc).data → (pi ≠ "" ∨ vc ≠ "") →
        mapGet (buildCatalogByVariant catalogs) (variantKey g pi vc) = none) := by
  constructor
  · intro data
    suffices h : ∀ (schemes : List ProductionScheme)
        (st : List Catalog × List String × Int),
        (∀ c ∈ st.1, c.series = "" ∧ c.color = "") →
        st.1.map (·.genus) = st.2.1 →
        st.1.map (·.id) = (List.range' 1 st.1.length).map (fun n => (n : Int)) →
        st.2.2 = 1 + st.1.length →
        (∀ c ∈ (schemes.foldl catalogStep st).1, c.series = "" ∧ c.color = "") ∧
        (schemes.foldl catalogStep st).1.map (·.genus) =
          (schemes.foldl (fun acc s =>
            if s.genusCode ∈ acc then acc else acc ++ [s.genusCode]) st.2.1) ∧
        (schemes.foldl catalogStep st).1.map (·.id) =
          (List.range' 1 (schemes.foldl catalogStep st).1.length).map (fun n => (n : Int)) by
      have h0 := h data.schemes ([], [], 1) (by simp) (by simp) (by simp) (by simp)
      refine ⟨h0.1, ?_, h0.2.2⟩
      rw [show generateCatalogs data = (data.schemes.foldl catalogStep ([], [], 1)).1 from rfl,
        h0.2.1]
      unfold jsKeys
      rw [List.foldl_map]
    intro schemes
    induction schemes with
    | nil => intro st h1 h2 h3 h4; exact ⟨h1, h2, h3⟩
    | cons s rest ih =>
      intro st h1 h2 h3 h4
      simp only [List.foldl_cons]
      by_cases hmem : s.genusCode ∈ st.2.1
      · have hstep : catalogStep st s = st := by
          unfold catalogStep
          rw [if_pos hmem]
        rw [hstep]
        have := ih st h1 h2 h3 h4
        rwa [if_pos hmem]
      · have hstep : catalogStep st s =
            (st.1 ++ [{ id := st.2.2, genus := s.genusCode, series := "", color := "" }],
             st.2.1 ++ [s.genusCode], st.2.2 + 1) := by
          unfold catalogStep
          rw [if_neg hmem]
        rw [hstep, if_neg hmem]
        refine ih _ ?_ ?_ ?_ ?_
        · intro c hc
          rcases List.mem_append.1 hc with hc | hc
          · exact h1 c hc
          · rw [List.mem_singleton] at hc
            rw [hc]
            exact ⟨rfl, rfl⟩
        · simp only [List.map_append, List.map_cons, List.map_nil, h2]
        · simp only [List.map_append, List.map_cons, List.map_nil, h3, List.length_append,
            List.length_singleton]
          rw [h4, List.range'_concat]
          simp [add_comm]
        · simp only [List.length_append, List.length_singleton]
          omega
  · intro catalogs hc g pi vc hg hp hv hne
    unfold mapGet
    rw [Option.map_eq_none']
    rw [List.find?_eq_none]
    intro e he
    rw [List.mem_reverse] at he
    unfold buildCatalogByVariant at he
    rw [List.mem_map] at he
    obtain ⟨c, hcmem, rfl⟩ := he
    obtain ⟨hs, hcol, hgen⟩ := hc c hcmem
    simp only [beq_iff_eq]
    intro hkey
    unfold variantKey at hkey
    have hdata := congrArg String.data hkey
    rw [hs, hcol] at hdata
    rw [jsToLowerCase_data, jsToLowerCase_data] at hdata
    simp only [String.data_append, List.map_append] at hdata
    have hdata2 : (jsToLowerCase c.genus).data ++ ['|', '|'] =
        (jsToLowerCase g).data ++ '|' ::
          ((jsToLowerCase pi).data ++ '|' :: (jsToLowerCase vc).data) := by
      simpa [jsToLowerCase_data, List.append_assoc, List.map_cons, List.map_nil,
        (by decide : Char.toLower '|' = '|'),
        (by decide : ("" : String).data = []),
        (by decide : ("|" : String).data = ['|'])] using hdata
    have hne2 : (jsToLowerCase pi).data ≠ [] ∨ (jsToLowerCase vc).data ≠ [] := by
      rcases hne with hne | hne
      · left
        rw [jsToLowerCase_data]
        intro hmap
        exact string_ne_empty_data hne (List.map_eq_nil_iff.1 hmap)
      · right
        rw [jsToLowerCase_data]
        intro hmap
        exact string_ne_empty_data hne (List.map_eq_nil_iff.1 hmap)
    exact pipe_key_ne hgen hg hp hv hne2 hdata2

/-- Witness for the amended C10: a pipe-free catalog list resolves no exact
key for a non-empty production item. -/
theorem catalog_exact_lookup_amended_w :
    mapGet (buildCatalogByVariant [⟨2, "g", "", ""⟩]) (variantKey "g" "x" "") = none :=
  catalog_exact_lookup_amended.2 [⟨2, "g", "", ""⟩] (by decide) "g" "x" ""
    (by decide) (by decide) (by decide) (Or.inl (by decide))

-- ## C4: recipe dedup invariant

theorem addRecipeForRule_inv (pref : ProductionPreference) (genus category : String)
    (catalogId : Option Int) (st : RecipeGenState) (rule : SchemeRule)
    (h1 : ∀ r ∈ st.recipes, recipeKeyOf r ∈ st.seenRecipes)
    (h2 : List.Pairwise (fun a b => recipeKeyOf a ≠ recipeKeyOf b) st.recipes) :
    (∀ r ∈ (addRecipeForRule pref genus category catalogId st rule).recipes,
      recipeKeyOf r ∈ (addRecipeForRule pref genus category catalogId st rule).seenRecipes) ∧
    List.Pairwise (fun a b => recipeKeyOf a ≠ recipeKeyOf b)
      (addRecipeForRule pref genus category catalogId st rule).recipes := by
  unfold addRecipeForRule
  by_cases hk : recipeKey pref.locationCode pref.schemeCode rule.startWeek rule.endWeek ∈
      st.seenRecipes
  · rw [if_pos hk]
    exact ⟨h1, h2⟩
  · rw [if_neg hk]
    constructor
    · intro r hr
      rcases List.mem_append.1 hr with hr | hr
      · exact List.mem_append_left _ (h1 r hr)
      · rw [List.mem_singleton] at hr
        rw [hr]
        exact List.mem_append_right _ (List.mem_singleton_self _)
    · rw [List.pairwise_append]
      refine ⟨h2, List.pairwise_singleton _ _, ?_⟩
      intro a ha b hb
      rw [List.mem_singleton] at hb
      rw [hb]
      intro heq
      apply hk
      have hmem := h1 a ha
      rw [heq] at hmem
      exact hmem

theorem foldl_addRecipeForRule_inv (pref : ProductionPreference) (genus category : String)
    (catalogId : Option Int) :
    ∀ (segs : List SchemeRule) (st : RecipeGenState),
      (∀ r ∈ st.recipes, recipeKeyOf r ∈ st.seenRecipes) →
      List.Pairwise (fun a b => recipeKeyOf a ≠ recipeKeyOf b) st.recipes →
      (∀ r ∈ (segs.foldl (addRecipeForRule pref genus category catalogId) st).recipes,
        recipeKeyOf r ∈
          (segs.foldl (addRecipeForRule pref genus category catalogId) st).seenRecipes) ∧
      List.Pairwise (fun a b => recipeKeyOf a ≠ recipeKeyOf b)
        (segs.foldl (addRecipeForRule pref genus category catalogId) st).recipes := by
  intro segs
  induction segs with
  | nil => intro st h1 h2; exact ⟨h1, h2⟩
  | cons seg rest ih =>
    intro st h1 h2
    have hstep := addRecipeForRule_inv pref genus category catalogId st seg h1 h2
    exact ih _ hstep.1 hstep.2

theorem processPreference_inv (data : ParsedData) (dict : SchemeDictionary)
    (catalogs : List Catalog) (st : RecipeGenState) (pref : ProductionPreference)
    (h1 : ∀ r ∈ st.recipes, recipeKeyOf r ∈ st.seenRecipes)
    (h2 : List.Pairwise (fun a b => recipeKeyOf a ≠ recipeKeyOf b) st.recipes) :
    (∀ r ∈ (processPreference data dict catalogs st pref).recipes,
      recipeKeyOf r ∈ (processPreference data dict catalogs st pref).seenRecipes) ∧
    List.Pairwise (fun a b => recipeKeyOf a ≠ recipeKeyOf b)
      (processPreference data dict catalogs st pref).recipes := by
  unfold processPreference
  cases dictFind dict pref.schemeCode with
  | none => exact ⟨h1, h2⟩
  | some rules => exact foldl_addRecipeForRule_inv pref _ _ _ (mergeGrowAndSpace rules) st h1 h2

theorem recipeGenerator_pairwise (data : ParsedData) (dict : SchemeDictionary)
    (catalogs : List Catalog) :
    List.Pairwise (fun a b => ¬(a.locationCode = b.locationCode ∧
        a.schemeCode = b.schemeCode ∧ a.startWeek = b.startWeek ∧ a.endWeek = b.endWeek))
      (generateRecipes data dict catalogs).1 := by
  have hfold : ∀ (prefs : List ProductionPreference) (st : RecipeGenState),
      (∀ r ∈ st.recipes, recipeKeyOf r ∈ st.seenRecipes) →
      List.Pairwise (fun a b => recipeKeyOf a ≠ recipeKeyOf b) st.recipes →
      (∀ r ∈ (prefs.foldl (processPreference data dict catalogs) st).recipes,
        recipeKeyOf r ∈ (prefs.foldl (processPreference data dict catalogs) st).seenRecipes) ∧
      List.Pairwise (fun a b => recipeKeyOf a ≠ recipeKeyOf b)
        (prefs.foldl (processPreference data dict catalogs) st).recipes := by
    intro prefs
    induction prefs with
    | nil => intro st h1 h2; exact ⟨h1, h2⟩
    | cons pref rest ih =>
      intro st h1 h2
      have hstep := processPreference_inv data dict catalogs st pref h1 h2
      exact ih _ hstep.1 hstep.2
  have hmain := (hfold data.preferences
    { recipes := [], warnings := [], nextId := 1, seenRecipes := [] }
    (by intro r hr; simp at hr) List.Pairwise.nil).2
  refine hmain.imp ?_
  intro a b hne hconj
  apply hne
  unfold recipeKeyOf recipeKey
  rw [hconj.1, hconj.2.1, hconj.2.2.1, hconj.2.2.2]


/-- C4: no two recipes emitted by `generateRecipes` share the composite key
(locationCode, schemeCode, startWeek, endWeek); a (preference, merged
segment) pair whose key was already seen changes nothing (it is skipped, not
emitted). -/
theorem recipeGenerator_key_unique :
    (∀ (data : ParsedData) (dict : SchemeDictionary) (catalogs : List Catalog),
      List.Pairwise (fun a b => ¬(a.locationCode = b.locationCode ∧
          a.schemeCode = b.schemeCode ∧ a.startWeek = b.startWeek ∧ a.endWeek = b.endWeek))
        (generateRecipes data dict catalogs).1) ∧
    (∀ (pref : ProductionPreference) (genus category : String) (catalogId : Option Int)
        (st : RecipeGenState) (rule : SchemeRule),
      recipeKey pref.locationCode pref.schemeCode rule.startWeek rule.endWeek ∈
        st.seenRecipes →
      addRecipeForRule pref genus category catalogId st rule = st) := by
  constructor
  · intro data dict catalogs
    exact recipeGenerator_pairwise data dict catalogs
  · intro pref genus category catalogId st rule hk
    unfold addRecipeForRule
    rw [if_pos hk]

/-- Witness for C4's skip clause: a rule whose key is already in the seen
set leaves the generation state unchanged. -/
theorem recipeGenerator_key_unique_w :
    addRecipeForRule ⟨"4000084", "B01", "KY01", "S", "", ""⟩ "g" "c" none
      { recipes := [], warnings := [], nextId := 1, seenRecipes := ["KY01|S|1|53"] }
      ⟨1, 53, 6, "GROW"⟩ =
    { recipes := [], warnings := [], nextId := 1, seenRecipes := ["KY01|S|1|53"] } :=
  recipeGenerator_key_unique.2 ⟨"4000084", "B01", "KY01", "S", "", ""⟩ "g" "c" none
    { recipes := [], warnings := [], nextId := 1, seenRecipes := ["KY01|S|1|53"] }
    ⟨1, 53, 6, "GROW"⟩ (by decide)

-- ## C9: comparison-engine lemmas

theorem bool_eq_decide {b : Bool} {p : Prop} [Decidable p] (h : b = true ↔ p) :
    b = decide p := by
  cases hb : b
  · rw [hb] at h
    have : ¬p := fun hp => by simp at h; exact h hp
    simp [this]
  · rw [hb] at h
    simp [h.1 rfl]

theorem mapSet_keys {β : Type} (m : List (String × β)) (k : String) (v : β) :
    (mapSet m k v).map Prod.fst =
      if m.any (fun p => p.1 == k) then m.map Prod.fst else m.map Prod.fst ++ [k] := by
  unfold mapSet
  by_cases h : m.any (fun p => p.1 == k)
  · rw [if_pos h, if_pos h, List.map_map]
    refine List.map_congr_left ?_
    intro p _
    simp only [Function.comp_apply]
    by_cases hp : p.1 == k
    · rw [if_pos hp]
      exact (beq_iff_eq.1 hp).symm
    · rw [if_neg hp]
  · rw [if_neg h, if_neg h, List.map_append]
    rfl

theorem mapSet_keys_nodup {β : Type} {m : List (String × β)}
    (h : (m.map Prod.fst).Nodup) (k : String) (v : β) :
    ((mapSet m k v).map Prod.fst).Nodup := by
  rw [mapSet_keys]
  by_cases hany : m.any (fun p => p.1 == k)
  · rwa [if_pos hany]
  · rw [if_neg hany, List.nodup_append]
    refine ⟨h, List.nodup_singleton _, ?_⟩
    intro x hx hx1
    rw [List.mem_singleton] at hx1
    subst hx1
    rw [List.mem_map] at hx
    obtain ⟨p, hp, hpk⟩ := hx
    rw [List.any_eq_true] at hany
    exact hany ⟨p, hp, by rw [beq_iff_eq, hpk]⟩

theorem buildIndex_keys_nodup (rows : List Row) (keyFields : List String) :
    ((buildIndex rows keyFields).map Prod.fst).Nodup := by
  unfold buildIndex
  suffices h : ∀ (l : List Row) (idx : List (String × Row)), (idx.map Prod.fst).Nodup →
      ((l.foldl (buildIndexStep keyFields) idx).map Prod.fst).Nodup from
    h rows [] (by simp)
  intro l
  induction l with
  | nil => intro idx h; exact h
  | cons row rest ih =>
    intro idx h
    rw [List.foldl_cons]
    apply ih
    unfold buildIndexStep
    by_cases hk : buildKey row keyFields ≠ "" ∧ buildKey row keyFields ≠ emptyKeyOf keyFields
    · rw [if_pos hk]
      exact mapSet_keys_nodup h _ _
    · rwa [if_neg hk]

theorem mapLookup_isSome {β : Type} (m : List (String × β)) (k : String) :
    (mapLookup m k).isSome = true ↔ k ∈ m.map Prod.fst := by
  unfold mapLookup
  rw [Option.isSome_map']
  rw [List.find?_isSome]
  constructor
  · rintro ⟨p, hp, hpk⟩
    rw [List.mem_map]
    exact ⟨p, hp, beq_iff_eq.1 hpk⟩
  · intro hk
    rw [List.mem_map] at hk
    obtain ⟨p, hp, hpk⟩ := hk
    exact ⟨p, hp, by rw [beq_iff_eq, hpk]⟩

theorem sourceLoopStep_eq (ci : List (String × Row)) (cfg : CompareConfig)
    (acc : List ComparisonRow × List String) (kv : String × Row) :
    sourceLoopStep ci cfg acc kv =
      (acc.1 ++ [sourceRowFor ci cfg kv],
       acc.2 ++ if (mapLookup ci kv.1).isSome then [kv.1] else []) := by
  unfold sourceLoopStep sourceRowFor
  cases h : mapLookup ci kv.1 with
  | none => simp [h]
  | some crow => simp [h]

theorem sourceLoop_fold (ci : List (String × Row)) (cfg : CompareConfig) :
    ∀ (si : List (String × Row)) (acc : List ComparisonRow × List String),
      si.foldl (sourceLoopStep ci cfg) acc =
        (acc.1 ++ si.map (sourceRowFor ci cfg),
         acc.2 ++ (si.filter (fun kv => (mapLookup ci kv.1).isSome)).map Prod.fst) := by
  intro si
  induction si with
  | nil => intro acc; simp
  | cons kv rest ih =>
    intro acc
    rw [List.foldl_cons, sourceLoopStep_eq, ih]
    cases h : (mapLookup ci kv.1).isSome with
    | true =>
      simp only [h, ite_true, List.map_cons, List.filter_cons, List.append_assoc,
        List.cons_append, List.nil_append, List.singleton_append]
    | false =>
      simp only [h, ite_false, List.map_cons, List.filter_cons, List.append_assoc,
        List.cons_append, List.nil_append, List.append_nil, Bool.false_eq_true]

theorem filterMap_if {α β : Type} (f : α → β) (p : α → Prop) [DecidablePred p]
    (l : List α) :
    l.filterMap (fun a => if p a then none else some (f a)) =
      (l.filter (fun a => decide ¬p a)).map f := by
  induction l with
  | nil => rfl
  | cons a rest ih =>
    by_cases ha : p a
    · simp only [List.filterMap_cons, if_pos ha, List.filter_cons, decide_not,
        decide_eq_true ha, Bool.not_true, Bool.false_eq_true, ite_false, ih]
    · simp only [List.filterMap_cons, if_neg ha, List.filter_cons, decide_not,
        decide_eq_false ha, Bool.not_false, ite_true, List.map_cons, ih]

theorem bool_not_eq_decide {b : Bool} {p : Prop} [Decidable p] (h : b = true ↔ p) :
    (!b) = decide ¬p := by
  cases hb : b
  · rw [hb] at h
    have hnp : ¬p := fun hp => by simp at h; exact h hp
    simp [hnp]
  · rw [hb] at h
    simp [h.1 rfl]

theorem sourceRowFor_key (ci : List (String × Row)) (cfg : CompareConfig)
    (kv : String × Row) : (sourceRowFor ci cfg kv).key = kv.1 := by
  unfold sourceRowFor
  cases mapLookup ci kv.1 <;> rfl

theorem countA_matched_changed (ci : List (String × Row)) (cfg : CompareConfig)
    (si : List (String × Row)) :
    (si.map (sourceRowFor ci cfg)).countP (fun r => r.status == RowStatus.matched) +
      (si.map (sourceRowFor ci cfg)).countP (fun r => r.status == RowStatus.changed) =
      (si.filter (fun kv => (mapLookup ci kv.1).isSome)).length := by
  induction si with
  | nil => rfl
  | cons kv rest ih =>
    simp only [List.map_cons, List.countP_cons, List.filter_cons]
    cases h : mapLookup ci kv.1 with
    | none =>
      simp only [sourceRowFor, h, Option.isSome_none, Bool.false_eq_true, ite_false]
      simp only [show (RowStatus.added == RowStatus.matched) = false from rfl,
        show (RowStatus.added == RowStatus.changed) = false from rfl,
        Bool.false_eq_true, ite_false, add_zero]
      exact ih
    | some crow =>
      simp only [sourceRowFor, h, Option.isSome_some, ite_true, List.length_cons]
      by_cases hd : (diffsFor cfg kv.2 crow).length > 0
      · simp only [if_pos hd]
        simp only [show (RowStatus.changed == RowStatus.matched) = false from rfl,
          show (RowStatus.changed == RowStatus.changed) = true from rfl,
          Bool.false_eq_true, ite_false, ite_true, add_zero]
        omega
      · simp only [if_neg hd]
        simp only [show (RowStatus.matched == RowStatus.matched) = true from rfl,
          show (RowStatus.matched == RowStatus.changed) = false from rfl,
          Bool.false_eq_true, ite_false, ite_true, add_zero]
        omega

theorem countA_added (ci : List (String × Row)) (cfg : CompareConfig)
    (si : List (String × Row)) :
    (si.map (sourceRowFor ci cfg)).countP (fun r => r.status == RowStatus.added) =
      (si.filter (fun kv => !(mapLookup ci kv.1).isSome)).length := by
  induction si with
  | nil => rfl
  | cons kv rest ih =>
    simp only [List.map_cons, List.countP_cons, List.filter_cons]
    cases h : mapLookup ci kv.1 with
    | none =>
      simp only [sourceRowFor, h, Option.isSome_none, Bool.not_false, ite_true,
        List.length_cons,
        show (RowStatus.added == RowStatus.added) = true from rfl]
      omega
    | some crow =>
      simp only [sourceRowFor, h, Option.isSome_some, Bool.not_true, Bool.false_eq_true,
        ite_false]
      by_cases hd : (diffsFor cfg kv.2 crow).length > 0
      · simp only [if_pos hd,
          show (RowStatus.changed == RowStatus.added) = false from rfl,
          Bool.false_eq_true, ite_false, add_zero]
        exact ih
      · simp only [if_neg hd,
          show (RowStatus.matched == RowStatus.added) = false from rfl,
          Bool.false_eq_true, ite_false, add_zero]
        exact ih

theorem countA_removed (ci : List (String × Row)) (cfg : CompareConfig)
    (si : List (String × Row)) :
    (si.map (sourceRowFor ci cfg)).countP (fun r => r.status == RowStatus.removed) = 0 := by
  rw [List.countP_eq_zero]
  intro r hr
  rw [List.mem_map] at hr
  obtain ⟨kv, _, rfl⟩ := hr
  unfold sourceRowFor
  cases mapLookup ci kv.1 with
  | none => simp
  | some crow =>
    by_cases hd : (diffsFor cfg kv.2 crow).length > 0 <;> simp [hd]

theorem mem_processed_iff (ci si : List (String × Row)) (kv : String × Row)
    (hkv : kv ∈ ci) :
    kv.1 ∈ (si.filter (fun kv2 => (mapLookup ci kv2.1).isSome)).map Prod.fst ↔
      kv.1 ∈ si.map Prod.fst := by
  constructor
  · intro h
    rw [List.mem_map] at h ⊢
    obtain ⟨e, he, hek⟩ := h
    exact ⟨e, (List.mem_filter.1 he).1, hek⟩
  · intro h
    rw [List.mem_map] at h ⊢
    obtain ⟨e, he, hek⟩ := h
    refine ⟨e, List.mem_filter.2 ⟨he, ?_⟩, hek⟩
    rw [hek, mapLookup_isSome]
    rw [List.mem_map]
    exact ⟨kv, hkv, rfl⟩

theorem removed_filter_congr (ci si : List (String × Row)) :
    ci.filter (fun kv =>
        decide ¬(kv.1 ∈ (si.filter (fun kv2 => (mapLookup ci kv2.1).isSome)).map Prod.fst)) =
      ci.filter (fun kv => decide (kv.1 ∉ si.map Prod.fst)) :=
  List.filter_congr fun kv hkv =>
    decide_eq_decide.2 (not_congr (mem_processed_iff ci si kv hkv))

theorem filter_isSome_eq_filter_mem (ci si : List (String × Row)) :
    si.filter (fun kv => (mapLookup ci kv.1).isSome) =
      si.filter (fun kv => decide (kv.1 ∈ ci.map Prod.fst)) :=
  List.filter_congr fun kv _ => bool_eq_decide (mapLookup_isSome ci kv.1)

theorem filter_not_isSome_eq_filter_mem (ci si : List (String × Row)) :
    si.filter (fun kv => !(mapLookup ci kv.1).isSome) =
      si.filter (fun kv => decide (kv.1 ∉ ci.map Prod.fst)) :=
  List.filter_congr fun kv _ => bool_not_eq_decide (mapLookup_isSome ci kv.1)

theorem length_filter_keys (si : List (String × Row)) (p : String → Bool) :
    ((si.map Prod.fst).filter p).length = (si.filter (fun kv => p kv.1)).length := by
  rw [List.filter_map, List.length_map]
  rfl

/-- Closed form of `compareDataCore`: the first loop yields one row per
source-index entry; the removal loop yields one row per comparison-index
entry whose key is not in the source index. -/
theorem compareDataCore_eq (sourceRows : List Row) (compareHeaders : List String)
    (compareFileRows : List Row) (cfg : CompareConfig) :
    compareDataCore sourceRows compareHeaders compareFileRows cfg =
      { dataType := cfg.label
        config := cfg
        totalSource := (buildIndex sourceRows cfg.keyFields).length
        totalCompare := (buildIndex (normalizeHeaders compareFileRows compareHeaders cfg)
          cfg.keyFields).length
        matched := ((List.insertionSort
            (fun a b => statusOrder a.status ≤ statusOrder b.status)
            ((buildIndex sourceRows cfg.keyFields).map
                (sourceRowFor (buildIndex (normalizeHeaders compareFileRows compareHeaders cfg)
                  cfg.keyFields) cfg) ++
              ((buildIndex (normalizeHeaders compareFileRows compareHeaders cfg)
                  cfg.keyFields).filter (fun kv =>
                    decide (kv.1 ∉ (buildIndex sourceRows cfg.keyFields).map Prod.fst))).map
                (fun kv => { status := RowStatus.removed, key := kv.1, diffs := [],
                             sourceRow := none, compareRow := some kv.2 }))).filter
          (fun r => r.status == RowStatus.matched)).length
        added := ((List.insertionSort
            (fun a b => statusOrder a.status ≤ statusOrder b.status)
            ((buildIndex sourceRows cfg.keyFields).map
                (sourceRowFor (buildIndex (normalizeHeaders compareFileRows compareHeaders cfg)
                  cfg.keyFields) cfg) ++
              ((buildIndex (normalizeHeaders compareFileRows compareHeaders cfg)
                  cfg.keyFields).filter (fun kv =>
                    decide (kv.1 ∉ (buildIndex sourceRows cfg.keyFields).map Prod.fst))).map
                (fun kv => { status := RowStatus.removed, key := kv.1, diffs := [],
                             sourceRow := none, compareRow := some kv.2 }))).filter
          (fun r => r.status == RowStatus.added)).length
        removed := ((List.insertionSort
            (fun a b => statusOrder a.status ≤ statusOrder b.status)
            ((buildIndex sourceRows cfg.keyFields).map
                (sourceRowFor (buildIndex (normalizeHeaders compareFileRows compareHeaders cfg)
                  cfg.keyFields) cfg) ++
              ((buildIndex (normalizeHeaders compareFileRows compareHeaders cfg)
                  cfg.keyFields).filter (fun kv =>
                    decide (kv.1 ∉ (buildIndex sourceRows cfg.keyFields).map Prod.fst))).map
                (fun kv => { status := RowStatus.removed, key := kv.1, diffs := [],
                             sourceRow := none, compareRow := some kv.2 }))).filter
          (fun r => r.status == RowStatus.removed)).length
        changed := ((List.insertionSort
            (fun a b => statusOrder a.status ≤ statusOrder b.status)
            ((buildIndex sourceRows cfg.keyFields).map
                (sourceRowFor (buildIndex (normalizeHeaders compareFileRows compareHeaders cfg)
                  cfg.keyFields) cfg) ++
              ((buildIndex (normalizeHeaders compareFileRows compareHeaders cfg)
                  cfg.keyFields).filter (fun kv =>
                    decide (kv.1 ∉ (buildIndex sourceRows cfg.keyFields).map Prod.fst))).map
                (fun kv => { status := RowStatus.removed, key := kv.1, diffs := [],
                             sourceRow := none, compareRow := some kv.2 }))).filter
          (fun r => r.status == RowStatus.changed)).length
        rows := List.insertionSort
            (fun a b => statusOrder a.status ≤ statusOrder b.status)
            ((buildIndex sourceRows cfg.keyFields).map
                (sourceRowFor (buildIndex (normalizeHeaders compareFileRows compareHeaders cfg)
                  cfg.keyFields) cfg) ++
              ((buildIndex (normalizeHeaders compareFileRows compareHeaders cfg)
                  cfg.keyFields).filter (fun kv =>
                    decide (kv.1 ∉ (buildIndex sourceRows cfg.keyFields).map Prod.fst))).map
                (fun kv => { status := RowStatus.removed, key := kv.1, diffs := [],
                             sourceRow := none, compareRow := some kv.2 })) } := by
  unfold compareDataCore
  dsimp only
  rw [sourceLoop_fold]
  dsimp only
  simp only [List.nil_append]
  rw [filterMap_if (fun kv : String × Row =>
      ({ status := RowStatus.removed, key := kv.1, diffs := [],
         sourceRow := none, compareRow := some kv.2 } : ComparisonRow))
    (fun kv : String × Row =>
      kv.1 ∈ ((buildIndex sourceRows cfg.keyFields).filter (fun kv2 =>
        (mapLookup (buildIndex (normalizeHeaders compareFileRows compareHeaders cfg)
          cfg.keyFields) kv2.1).isSome)).map Prod.fst)]
  rw [removed_filter_congr]

/-- C9: for every run of `compareData`, every composite key present in the
source index or the comparison index appears in exactly one result row;
`matched + changed` counts the keys present in both indexes; `added` counts
the keys only in the source index; `removed` counts the keys only in the
comparison index. -/
theorem comparisonEngine_coverage (sourceRows : List Row) (compareHeaders : List String)
    (compareFileRows : List Row) (dataType : String) (cfg : CompareConfig) :
    (compareData sourceRows compareHeaders compareFileRows dataType (some cfg) =
      some (compareDataCore sourceRows compareHeaders compareFileRows cfg)) ∧
    (∀ k : String, (k ∈ (sourceKeys sourceRows cfg) ∨ k ∈ (compareKeys compareFileRows compareHeaders cfg)) →
      ((compareDataCore sourceRows compareHeaders compareFileRows cfg).rows.filter (fun r => r.key == k)).length = 1) ∧
    ((compareDataCore sourceRows compareHeaders compareFileRows cfg).matched + (compareDataCore sourceRows compareHeaders compareFileRows cfg).changed =
      (((sourceKeys sourceRows cfg).filter (fun k => decide (k ∈ (compareKeys compareFileRows compareHeaders cfg)))).length : Int)) ∧
    ((compareDataCore sourceRows compareHeaders compareFileRows cfg).added =
      (((sourceKeys sourceRows cfg).filter (fun k => decide (k ∉ (compareKeys compareFileRows compareHeaders cfg)))).length : Int)) ∧
    ((compareDataCore sourceRows compareHeaders compareFileRows cfg).removed =
      (((compareKeys compareFileRows compareHeaders cfg).filter (fun k => decide (k ∉ (sourceKeys sourceRows cfg)))).length : Int)) := by
  have hnodupSI : ((buildIndex sourceRows cfg.keyFields).map Prod.fst).Nodup :=
    buildIndex_keys_nodup sourceRows cfg.keyFields
  have hnodupCI : ((buildIndex (normalizeHeaders compareFileRows compareHeaders cfg) cfg.keyFields).map Prod.fst).Nodup :=
    buildIndex_keys_nodup (normalizeHeaders compareFileRows compareHeaders cfg) cfg.keyFields
  have hBrowsRemoved : ∀ r ∈ ((buildIndex (normalizeHeaders compareFileRows compareHeaders cfg) cfg.keyFields).filter (fun kv =>
      decide (kv.1 ∉ (buildIndex sourceRows cfg.keyFields).map Prod.fst))).map
        (fun kv => ({ status := RowStatus.removed, key := kv.1, diffs := [],
                      sourceRow := none, compareRow := some kv.2 } : ComparisonRow)),
      r.status = RowStatus.removed := by
    intro r hr
    rw [List.mem_map] at hr
    obtain ⟨kv, _, rfl⟩ := hr
    rfl
  refine ⟨rfl, ?_, ?_, ?_, ?_⟩
  · -- every key in either index appears in exactly one result row
    intro k hk
    rw [compareDataCore_eq]
    dsimp only
    rw [← List.countP_eq_length_filter]
    rw [(List.perm_insertionSort
      (fun a b : ComparisonRow => statusOrder a.status ≤ statusOrder b.status) _).countP_eq]
    have hkeys : (((buildIndex sourceRows cfg.keyFields).map (sourceRowFor (buildIndex (normalizeHeaders compareFileRows compareHeaders cfg) cfg.keyFields) cfg) ++
        ((buildIndex (normalizeHeaders compareFileRows compareHeaders cfg) cfg.keyFields).filter (fun kv => decide (kv.1 ∉ (buildIndex sourceRows cfg.keyFields).map Prod.fst))).map
          (fun kv => ({ status := RowStatus.removed, key := kv.1, diffs := [],
                        sourceRow := none, compareRow := some kv.2 } : ComparisonRow))).map
          (fun r => r.key)) =
        (buildIndex sourceRows cfg.keyFields).map Prod.fst ++
          ((buildIndex (normalizeHeaders compareFileRows compareHeaders cfg) cfg.keyFields).filter (fun kv => decide (kv.1 ∉ (buildIndex sourceRows cfg.keyFields).map Prod.fst))).map Prod.fst := by
      rw [List.map_append, List.map_map, List.map_map]
      congr 1
      exact List.map_congr_left (fun kv _ => sourceRowFor_key (buildIndex (normalizeHeaders compareFileRows compareHeaders cfg) cfg.keyFields) cfg kv)
    have hcnt : ∀ l : List ComparisonRow,
        l.countP (fun r => r.key == k) = List.count k (l.map (fun r => r.key)) := by
      intro l
      rw [List.count, List.countP_map]
      rfl
    rw [hcnt, hkeys]
    have hnodupB : (((buildIndex (normalizeHeaders compareFileRows compareHeaders cfg) cfg.keyFields).filter (fun kv =>
        decide (kv.1 ∉ (buildIndex sourceRows cfg.keyFields).map Prod.fst))).map Prod.fst).Nodup := by
      have hsub : List.Sublist
          (((buildIndex (normalizeHeaders compareFileRows compareHeaders cfg) cfg.keyFields).filter (fun kv =>
            decide (kv.1 ∉ (buildIndex sourceRows cfg.keyFields).map Prod.fst))).map Prod.fst)
          ((buildIndex (normalizeHeaders compareFileRows compareHeaders cfg) cfg.keyFields).map Prod.fst) :=
        (List.filter_sublist _).map Prod.fst
      exact hnodupCI.sublist hsub
    have hdisj : ∀ x ∈ (buildIndex sourceRows cfg.keyFields).map Prod.fst,
        x ∉ ((buildIndex (normalizeHeaders compareFileRows compareHeaders cfg) cfg.keyFields).filter (fun kv => decide (kv.1 ∉ (buildIndex sourceRows cfg.keyFields).map Prod.fst))).map Prod.fst := by
      intro x hx hx2
      rw [List.mem_map] at hx2
      obtain ⟨kv, hkv, rfl⟩ := hx2
      have := (List.mem_filter.1 hkv).2
      rw [decide_eq_true_eq] at this
      exact this hx
    have hnodup : ((buildIndex sourceRows cfg.keyFields).map Prod.fst ++
        ((buildIndex (normalizeHeaders compareFileRows compareHeaders cfg) cfg.keyFields).filter (fun kv => decide (kv.1 ∉ (buildIndex sourceRows cfg.keyFields).map Prod.fst))).map Prod.fst).Nodup := by
      rw [List.nodup_append]
      exact ⟨hnodupSI, hnodupB, hdisj⟩
    have hmem : k ∈ (buildIndex sourceRows cfg.keyFields).map Prod.fst ++
        ((buildIndex (normalizeHeaders compareFileRows compareHeaders cfg) cfg.keyFields).filter (fun kv => decide (kv.1 ∉ (buildIndex sourceRows cfg.keyFields).map Prod.fst))).map Prod.fst := by
      rcases hk with hk | hk
      · exact List.mem_append_left _ hk
      · by_cases hks : k ∈ (buildIndex sourceRows cfg.keyFields).map Prod.fst
        · exact List.mem_append_left _ hks
        · refine List.mem_append_right _ ?_
          have hk2 : k ∈ (buildIndex (normalizeHeaders compareFileRows compareHeaders cfg) cfg.keyFields).map Prod.fst := hk
          rw [List.mem_map] at hk2
          obtain ⟨kv, hkv, rfl⟩ := hk2
          rw [List.mem_map]
          exact ⟨kv, List.mem_filter.2 ⟨hkv, by rw [decide_eq_true_eq]; exact hks⟩, rfl⟩
    exact List.count_eq_one_of_mem hnodup hmem
  · -- matched + changed = keys in both
    rw [compareDataCore_eq]
    dsimp only
    rw [← Nat.cast_add]
    congr 1
    rw [← List.countP_eq_length_filter, ← List.countP_eq_length_filter]
    rw [(List.perm_insertionSort
      (fun a b : ComparisonRow => statusOrder a.status ≤ statusOrder b.status) _).countP_eq]
    rw [(List.perm_insertionSort
      (fun a b : ComparisonRow => statusOrder a.status ≤ statusOrder b.status) _).countP_eq]
    rw [List.countP_append, List.countP_append]
    have hBm : (((buildIndex (normalizeHeaders compareFileRows compareHeaders cfg) cfg.keyFields).filter (fun kv => decide (kv.1 ∉ (buildIndex sourceRows cfg.keyFields).map Prod.fst))).map
        (fun kv => ({ status := RowStatus.removed, key := kv.1, diffs := [],
                      sourceRow := none, compareRow := some kv.2 } : ComparisonRow))).countP
          (fun r => r.status == RowStatus.matched) = 0 := by
      rw [List.countP_eq_zero]
      intro r hr
      rw [hBrowsRemoved r hr]
      decide
    have hBc : (((buildIndex (normalizeHeaders compareFileRows compareHeaders cfg) cfg.keyFields).filter (fun kv => decide (kv.1 ∉ (buildIndex sourceRows cfg.keyFields).map Prod.fst))).map
        (fun kv => ({ status := RowStatus.removed, key := kv.1, diffs := [],
                      sourceRow := none, compareRow := some kv.2 } : ComparisonRow))).countP
          (fun r => r.status == RowStatus.changed) = 0 := by
      rw [List.countP_eq_zero]
      intro r hr
      rw [hBrowsRemoved r hr]
      decide
    rw [hBm, hBc]
    have hA := countA_matched_changed (buildIndex (normalizeHeaders compareFileRows compareHeaders cfg) cfg.keyFields) cfg (buildIndex sourceRows cfg.keyFields)
    have htrans : ((buildIndex sourceRows cfg.keyFields).filter (fun kv => (mapLookup (buildIndex (normalizeHeaders compareFileRows compareHeaders cfg) cfg.keyFields) kv.1).isSome)).length =
        ((sourceKeys sourceRows cfg).filter (fun k => decide (k ∈ (compareKeys compareFileRows compareHeaders cfg)))).length := by
      rw [filter_isSome_eq_filter_mem]
      unfold sourceKeys compareKeys
      rw [length_filter_keys]
    omega
  · -- added = keys only in source
    rw [compareDataCore_eq]
    dsimp only
    congr 1
    rw [← List.countP_eq_length_filter]
    rw [(List.perm_insertionSort
      (fun a b : ComparisonRow => statusOrder a.status ≤ statusOrder b.status) _).countP_eq]
    rw [List.countP_append]
    have hBa : (((buildIndex (normalizeHeaders compareFileRows compareHeaders cfg) cfg.keyFields).filter (fun kv => decide (kv.1 ∉ (buildIndex sourceRows cfg.keyFields).map Prod.fst))).map
        (fun kv => ({ status := RowStatus.removed, key := kv.1, diffs := [],
                      sourceRow := none, compareRow := some kv.2 } : ComparisonRow))).countP
          (fun r => r.status == RowStatus.added) = 0 := by
      rw [List.countP_eq_zero]
      intro r hr
      rw [hBrowsRemoved r hr]
      decide
    rw [hBa, countA_added]
    rw [filter_not_isSome_eq_filter_mem]
    unfold sourceKeys compareKeys
    rw [length_filter_keys]
    omega
  · -- removed = keys only in comparison
    rw [compareDataCore_eq]
    dsimp only
    congr 1
    rw [← List.countP_eq_length_filter]
    rw [(List.perm_insertionSort
      (fun a b : ComparisonRow => statusOrder a.status ≤ statusOrder b.status) _).countP_eq]
    rw [List.countP_append]
    have hAr := countA_removed (buildIndex (normalizeHeaders compareFileRows compareHeaders cfg) cfg.keyFields) cfg (buildIndex sourceRows cfg.keyFields)
    rw [hAr]
    have hBr : (((buildIndex (normalizeHeaders compareFileRows compareHeaders cfg) cfg.keyFields).filter (fun kv => decide (kv.1 ∉ (buildIndex sourceRows cfg.keyFields).map Prod.fst))).map
        (fun kv => ({ status := RowStatus.removed, key := kv.1, diffs := [],
                      sourceRow := none, compareRow := some kv.2 } : ComparisonRow))).countP
          (fun r => r.status == RowStatus.removed) =
        ((buildIndex (normalizeHeaders compareFileRows compareHeaders cfg) cfg.keyFields).filter (fun kv => decide (kv.1 ∉ (buildIndex sourceRows cfg.keyFields).map Prod.fst))).length := by
      rw [show (((buildIndex (normalizeHeaders compareFileRows compareHeaders cfg) cfg.keyFields).filter (fun kv => decide (kv.1 ∉ (buildIndex sourceRows cfg.keyFields).map Prod.fst))).length) =
          ((((buildIndex (normalizeHeaders compareFileRows compareHeaders cfg) cfg.keyFields).filter (fun kv => decide (kv.1 ∉ (buildIndex sourceRows cfg.keyFields).map Prod.fst))).map
            (fun kv => ({ status := RowStatus.removed, key := kv.1, diffs := [],
                          sourceRow := none, compareRow := some kv.2 } : ComparisonRow))).length)
        from (List.length_map _ _).symm]
      rw [List.countP_eq_length]
      intro r hr
      rw [hBrowsRemoved r hr]
      rfl
    rw [hBr]
    unfold compareKeys sourceKeys
    rw [length_filter_keys]
    omega

-- ## C5: event derivation

theorem mergeGrowAndSpace_start_le_end {rules : List SchemeRule} {s : SchemeRule}
    (hs : s ∈ mergeGrowAndSpace rules) : s.startWeek ≤ s.endWeek := by
  obtain ⟨ab, _, hle, g, _, rfl⟩ := mergeGrowAndSpace_mem hs
  exact hle

theorem eraseId_eventStep (recipe : Recipe) (growRules : List SchemeRule)
    (rule : SchemeRule) (id : Int) :
    eraseId { id := id
              recipeId := recipe.id
              locationCode := recipe.locationCode
              category := recipe.category
              schemeCode := recipe.schemeCode
              genus := recipe.genus
              series := recipe.series
              color := recipe.color
              phase := rule.phase
              startWeek := max recipe.startWeek rule.startWeek
              endWeek := min recipe.endWeek rule.endWeek
              triggerWeeks :=
                if rule.phase ≠ "GROW" then
                  match growRules.find? (fun g =>
                    decide (max recipe.startWeek rule.startWeek ≥ g.startWeek) &&
                    decide (min recipe.endWeek rule.endWeek ≤ g.endWeek)) with
                  | some g => g.growWeeks
                  | none => 0
                else 0
              durationWeeks := rule.growWeeks } =
      eventSpecOfPair recipe growRules rule := by
  unfold eraseId eventSpecOfPair
  by_cases hph : rule.phase = "GROW"
  · simp [hph]
  · simp [hph]

theorem eventStep_fold (recipe : Recipe) (growRules : List SchemeRule) :
    ∀ (rules : List SchemeRule) (st : List SpaceEvent × Int),
      ((rules.foldl (eventStep recipe growRules) st).1).map eraseId =
        st.1.map eraseId ++
          (rules.filter (fun rule =>
            decide (recipe.startWeek ≤ rule.endWeek) &&
            decide (recipe.endWeek ≥ rule.startWeek))).map
            (eventSpecOfPair recipe growRules) := by
  intro rules
  induction rules with
  | nil => intro st; simp
  | cons rule rest ih =>
    intro st
    rw [List.foldl_cons, List.filter_cons]
    by_cases hov : recipe.startWeek > rule.endWeek ∨ recipe.endWeek < rule.startWeek
    · have hstep : eventStep recipe growRules st rule = st := by
        unfold eventStep
        rw [if_pos hov]
      have hfilt : (decide (recipe.startWeek ≤ rule.endWeek) &&
          decide (recipe.endWeek ≥ rule.startWeek)) = false := by
        rcases hov with h | h
        · simp [decide_eq_false (not_le.2 h)]
        · simp [decide_eq_false (not_le.2 h)]
      rw [hstep, hfilt]
      simp only [Bool.false_eq_true, ite_false]
      exact ih st
    · push_neg at hov
      have hfilt : (decide (recipe.startWeek ≤ rule.endWeek) &&
          decide (recipe.endWeek ≥ rule.startWeek)) = true := by
        simp only [Bool.and_eq_true, decide_eq_true_eq, ge_iff_le]
        exact ⟨hov.1, hov.2⟩
      have hstep : eventStep recipe growRules st rule =
          (st.1 ++ [{ id := st.2
                      recipeId := recipe.id
                      locationCode := recipe.locationCode
                      category := recipe.category
                      schemeCode := recipe.schemeCode
                      genus := recipe.genus
                      series := recipe.series
                      color := recipe.color
                      phase := rule.phase
                      startWeek := max recipe.startWeek rule.startWeek
                      endWeek := min recipe.endWeek rule.endWeek
                      triggerWeeks :=
                        if rule.phase ≠ "GROW" then
                          match growRules.find? (fun g =>
                            decide (max recipe.startWeek rule.startWeek ≥ g.startWeek) &&
                            decide (min recipe.endWeek rule.endWeek ≤ g.endWeek)) with
                          | some g => g.growWeeks
                          | none => 0
                        else 0
                      durationWeeks := rule.growWeeks }], st.2 + 1) := by
        unfold eventStep
        rw [if_neg (by push_neg; exact hov)]
      rw [hstep, hfilt]
      simp only [ite_true]
      rw [ih, List.map_append]
      rw [List.append_assoc]
      congr 1
      rw [List.map_cons]
      simp only [List.map_nil, List.singleton_append]
      congr 1
      exact eraseId_eventStep recipe growRules rule st.2

theorem eventsForRecipe_map (dict : SchemeDictionary) (st : List SpaceEvent × Int)
    (recipe : Recipe) :
    ((eventsForRecipe dict st recipe).1).map eraseId =
      st.1.map eraseId ++
        (match dictFind dict recipe.schemeCode with
         | none => []
         | some rules =>
           (rules.filter fun rule =>
             decide (recipe.startWeek ≤ rule.endWeek) &&
             decide (recipe.endWeek ≥ rule.startWeek)).map
             (eventSpecOfPair recipe (rules.filter (fun r => r.phase == "GROW")))) := by
  unfold eventsForRecipe
  cases hdf : dictFind dict recipe.schemeCode with
  | none => simp
  | some rules => exact eventStep_fold recipe _ rules st

theorem generateEvents_spec_eq (recipes : List Recipe) (dict : SchemeDictionary) :
    (generateEvents recipes dict).map eraseId = eventSpecList recipes dict := by
  unfold generateEvents eventSpecList
  suffices h : ∀ st : List SpaceEvent × Int,
      ((recipes.foldl (eventsForRecipe dict) st).1).map eraseId =
        st.1.map eraseId ++ recipes.flatMap (fun recipe =>
          match dictFind dict recipe.schemeCode with
          | none => []
          | some rules =>
            (rules.filter fun rule =>
              decide (recipe.startWeek ≤ rule.endWeek) &&
              decide (recipe.endWeek ≥ rule.startWeek)).map
              (eventSpecOfPair recipe (rules.filter (fun r => r.phase == "GROW")))) by
    simpa using h ([], 1)
  induction recipes with
  | nil => intro st; simp
  | cons recipe rest ih =>
    intro st
    rw [List.foldl_cons, ih, List.flatMap_cons]
    rw [eventsForRecipe_map, List.append_assoc]

theorem generateRecipes_window (data : ParsedData) (dict : SchemeDictionary)
    (catalogs : List Catalog) :
    ∀ r ∈ (generateRecipes data dict catalogs).1,
      ∃ rules, dictFind dict r.schemeCode = some rules ∧
        ∃ seg ∈ mergeGrowAndSpace rules,
          r.startWeek = seg.startWeek ∧ r.endWeek = seg.endWeek := by
  have hinner : ∀ (pref : ProductionPreference) (genus category : String)
      (catalogId : Option Int) (rules : List SchemeRule),
      dictFind dict pref.schemeCode = some rules →
      ∀ (segs : List SchemeRule), (∀ s ∈ segs, s ∈ mergeGrowAndSpace rules) →
      ∀ (st : RecipeGenState),
      (∀ r ∈ st.recipes, ∃ rules2, dictFind dict r.schemeCode = some rules2 ∧
        ∃ seg ∈ mergeGrowAndSpace rules2, r.startWeek = seg.startWeek ∧ r.endWeek = seg.endWeek) →
      ∀ r ∈ (segs.foldl (addRecipeForRule pref genus category catalogId) st).recipes,
        ∃ rules2, dictFind dict r.schemeCode = some rules2 ∧
          ∃ seg ∈ mergeGrowAndSpace rules2, r.startWeek = seg.startWeek ∧ r.endWeek = seg.endWeek := by
    intro pref genus category catalogId rules hdf segs
    induction segs with
    | nil => intro _ st hst; exact hst
    | cons seg rest ih =>
      intro hsegs st hst
      rw [List.foldl_cons]
      refine ih (fun s hs => hsegs s (List.mem_cons_of_mem _ hs)) _ ?_
      intro r hr
      unfold addRecipeForRule at hr
      by_cases hk : recipeKey pref.locationCode pref.schemeCode seg.startWeek seg.endWeek ∈
          st.seenRecipes
      · rw [if_pos hk] at hr
        exact hst r hr
      · rw [if_neg hk] at hr
        simp only at hr
        rcases List.mem_append.1 hr with hr | hr
        · exact hst r hr
        · rw [List.mem_singleton] at hr
          subst hr
          exact ⟨rules, hdf, seg, hsegs seg (List.mem_cons_self _ _), rfl, rfl⟩
  have houter : ∀ (prefs : List ProductionPreference) (st : RecipeGenState),
      (∀ r ∈ st.recipes, ∃ rules2, dictFind dict r.schemeCode = some rules2 ∧
        ∃ seg ∈ mergeGrowAndSpace rules2, r.startWeek = seg.startWeek ∧ r.endWeek = seg.endWeek) →
      ∀ r ∈ (prefs.foldl (processPreference data dict catalogs) st).recipes,
        ∃ rules2, dictFind dict r.schemeCode = some rules2 ∧
          ∃ seg ∈ mergeGrowAndSpace rules2, r.startWeek = seg.startWeek ∧ r.endWeek = seg.endWeek := by
    intro prefs
    induction prefs with
    | nil => intro st hst; exact hst
    | cons pref rest ih =>
      intro st hst
      rw [List.foldl_cons]
      refine ih _ ?_
      unfold processPreference
      cases hdf : dictFind dict pref.schemeCode with
      | none => exact hst
      | some rules =>
        exact hinner pref _ _ _ rules hdf (mergeGrowAndSpace rules) (fun s hs => hs) st hst
  exact houter data.preferences _ (by intro r hr; simp at hr)

/-- C5: `generateEvents` emits exactly one event per (recipe, overlapping
rule) pair, with the fields prescribed by `eventSpecOfPair` (intersection
window, first-containing-GROW-rule trigger, rule `growWeeks` duration); and
for every event of a full `transform` run,
`recipe.startWeek ≤ startWeek ≤ endWeek ≤ recipe.endWeek` holds for the
generating recipe. -/
theorem eventDeriver_spec :
    (∀ (recipes : List Recipe) (dict : SchemeDictionary),
      (generateEvents recipes dict).map eraseId = eventSpecList recipes dict) ∧
    (∀ data : ParsedData, ∀ e ∈ (transform data).events,
      ∃ r ∈ (transform data).recipes, e.recipeId = r.id ∧
        r.startWeek ≤ e.startWeek ∧ e.startWeek ≤ e.endWeek ∧ e.endWeek ≤ r.endWeek) := by
  refine ⟨generateEvents_spec_eq, ?_⟩
  intro data e he
  unfold transform at he ⊢
  dsimp only at he ⊢
  by_cases herr : (transformErrors data).length > 0
  · rw [if_pos herr] at he
    simp at he
  · rw [if_neg herr] at he ⊢
    have hmm : eraseId e ∈ (generateEvents
        ((generateRecipes data (buildSchemeDictionary data) (generateCatalogs data)).1)
        (buildSchemeDictionary data)).map eraseId :=
      List.mem_map_of_mem _ he
    rw [generateEvents_spec_eq] at hmm
    unfold eventSpecList at hmm
    rw [List.mem_flatMap] at hmm
    obtain ⟨recipe, hrec, hmem2⟩ := hmm
    cases hdf : dictFind (buildSchemeDictionary data) recipe.schemeCode with
    | none =>
      rw [hdf] at hmem2
      simp at hmem2
    | some rules =>
      rw [hdf] at hmem2
      rw [List.mem_map] at hmem2
      obtain ⟨rule, hrulef, heq⟩ := hmem2
      have hrule := List.mem_filter.1 hrulef
      have hov := hrule.2
      simp only [Bool.and_eq_true, decide_eq_true_eq, ge_iff_le] at hov
      obtain ⟨rules2, hdf2, seg, hseg, hsw, hew⟩ :=
        generateRecipes_window data (buildSchemeDictionary data) (generateCatalogs data)
          recipe hrec
      rw [hdf] at hdf2
      injection hdf2 with hdf2
      subst hdf2
      have hsegle : seg.startWeek ≤ seg.endWeek := mergeGrowAndSpace_start_le_end hseg
      have hcont := mergeSeg_contains hseg hrule.1 (by omega) (by omega)
      have hid : e.recipeId = recipe.id := by
        have hpr := congrArg SpaceEventData.recipeId heq
        simpa [eventSpecOfPair, eraseId] using hpr.symm
      have hsw2 : e.startWeek = max recipe.startWeek rule.startWeek := by
        have hpr := congrArg SpaceEventData.startWeek heq
        simpa [eventSpecOfPair, eraseId] using hpr.symm
      have hew2 : e.endWeek = min recipe.endWeek rule.endWeek := by
        have hpr := congrArg SpaceEventData.endWeek heq
        simpa [eventSpecOfPair, eraseId] using hpr.symm
      refine ⟨recipe, hrec, hid, ?_, ?_, ?_⟩
      · rw [hsw2]
        exact le_max_left _ _
      · rw [hsw2, hew2]
        refine max_le (le_min (by omega) (by omega)) (le_min (by omega) (by omega))
      · rw [hew2]
        exact min_le_left _ _

/-- Witness for C5 on the scenario dataset: the single emitted event lies
inside its recipe's window. -/
theorem eventDeriver_spec_w :
    eventW ∈ (transform dataZ).events ∧
    ∃ r ∈ (transform dataZ).recipes, eventW.recipeId = r.id ∧
      r.startWeek ≤ eventW.startWeek ∧ eventW.startWeek ≤ eventW.endWeek ∧
      eventW.endWeek ≤ r.endWeek :=
  ⟨by with_unfolding_all decide,
   eventDeriver_spec.2 dataZ eventW (by with_unfolding_all decide)⟩

/-- Witness for C9 on the concrete fixture: the key shared by both indexes
appears in exactly one result row. -/
theorem comparisonEngine_coverage_w :
    ("g1|s|c" ∈ sourceKeys srcRowsW catalogsCfg ∨
     "g1|s|c" ∈ compareKeys cmpRowsW cmpHeadersW catalogsCfg) ∧
    ((compareDataCore srcRowsW cmpHeadersW cmpRowsW catalogsCfg).rows.filter
        (fun r => r.key == "g1|s|c")).length = 1 :=
  ⟨Or.inl (by decide),
   (comparisonEngine_coverage srcRowsW cmpHeadersW cmpRowsW "catalogs" catalogsCfg).2.1
     "g1|s|c" (Or.inl (by decide))⟩

end BLN
